import Mathlib

/-!
A shallow embedding of the POP3SF server core (the per-connection protocol
state machine, the response encoder, the adapter-helper wrapper and the
per-user exclusivity registry) together with proofs about it.

Strings manipulated by the Python source are modelled as `List Char`
(Python `str` values are sequences of Unicode code points) or, where the
code stores them opaquely, as Lean `String`s.  Machine integers are `Int`
or `Nat`; Python ints are unbounded, so no overflow modelling is needed.
-/

namespace POP3SF

/-- The apostrophe character, used to assemble the response texts of the
source that contain one. -/
def apos : Char := Char.ofNat 39

/-- Apostrophe as a one-character string. -/
def aposS : String := String.mk [apos]

/-! ## Line splitting and newline normalisation

`Auxiliaries.split_lines_without_discarding_empty_lines` runs
`re.split(r'\r\n|\r|\n', string)`: a left-to-right scan that prefers the
two-character separator CRLF over bare CR and bare LF. -/

/-- Prepend a character to the first line of a line list. -/
def consHead (c : Char) : List (List Char) → List (List Char)
  | [] => [[c]]
  | l :: ls => (c :: l) :: ls

/-- Model of `re.split(r'\r\n|\r|\n', s)`: split into lines at every CRLF,
bare CR or bare LF, keeping empty lines (including a trailing one). -/
def splitLines : List Char → List (List Char)
  | [] => [[]]
  | '\r' :: '\n' :: rest => [] :: splitLines rest
  | '\r' :: rest => [] :: splitLines rest
  | '\n' :: rest => [] :: splitLines rest
  | c :: rest => consHead c (splitLines rest)

/-- Model of `"\r\n".join(lines)`. -/
def joinCRLF : List (List Char) → List Char
  | [] => []
  | [l] => l
  | l :: ls => l ++ '\r' :: '\n' :: joinCRLF ls

/-- Model of `re.sub(r'\r\n|\r|\n', '\r\n', s)` (used by
`AdapterHelperWrapper.get_message_size`): the same left-to-right scan,
replacing every matched separator by CRLF. -/
def normalizeNewlines : List Char → List Char
  | [] => []
  | '\r' :: '\n' :: rest => '\r' :: '\n' :: normalizeNewlines rest
  | '\r' :: rest => '\r' :: '\n' :: normalizeNewlines rest
  | '\n' :: rest => '\r' :: '\n' :: normalizeNewlines rest
  | c :: rest => c :: normalizeNewlines rest

/-- A line produced by the splitter contains no CR and no LF. -/
def lineClean (l : List Char) : Prop := '\r' ∉ l ∧ '\n' ∉ l

/-- Byte-stuffing of one line: `"." + line if line.startswith(".") else line`
(from `SendDataToClientException._compose_next_lines_of_a_multiline_message`). -/
def stuffLine (l : List Char) : List Char :=
  if l.head? = some '.' then '.' :: l else l

/-- The multiline part of a response:
`"\r\n".join(map(stuff, split_lines(body)))`. -/
def composeNextLines (body : List Char) : List Char :=
  joinCRLF ((splitLines body).map stuffLine)

/-- `s.endswith("\r\n")` on the char-list model. -/
def endsCRLF (l : List Char) : Bool :=
  match l.reverse with
  | c1 :: c2 :: _ => c1 == '\n' && c2 == '\r'
  | _ => false

/-- Checks that every CR in the string is immediately followed by LF and
every LF immediately preceded by CR, i.e. all line breaks are CRLF. -/
def crlfNormalizedB : List Char → Bool
  | [] => true
  | '\r' :: rest =>
    match rest with
    | '\n' :: rest2 => crlfNormalizedB rest2
    | _ => false
  | '\n' :: _ => false
  | _ :: rest => crlfNormalizedB rest

/-! ### Basic lemmas about the splitter -/

theorem consHead_ne_nil (c : Char) (ls : List (List Char)) : consHead c ls ≠ [] := by
  cases ls <;> simp [consHead]

theorem splitLines_ne_nil (s : List Char) : splitLines s ≠ [] := by
  induction s using splitLines.induct with
  | case1 => simp [splitLines]
  | case2 rest ih => simp [splitLines]
  | case3 rest h ih => simp [splitLines]
  | case4 rest ih => simp [splitLines]
  | case5 c rest h1 h2 h3 ih => simp only [splitLines]; exact consHead_ne_nil c _

theorem splitLines_clean (s : List Char) :
    ∀ l ∈ splitLines s, lineClean l := by
  induction s using splitLines.induct with
  | case1 =>
    intro l hl
    simp only [splitLines, List.mem_singleton] at hl
    simp [hl, lineClean]
  | case2 rest ih =>
    intro l hl
    simp only [splitLines, List.mem_cons] at hl
    rcases hl with h | h
    · simp [h, lineClean]
    · exact ih l h
  | case3 rest h ih =>
    intro l hl
    simp only [splitLines, List.mem_cons] at hl
    rcases hl with h' | h'
    · simp [h', lineClean]
    · exact ih l h'
  | case4 rest ih =>
    intro l hl
    simp only [splitLines, List.mem_cons] at hl
    rcases hl with h' | h'
    · simp [h', lineClean]
    · exact ih l h'
  | case5 c rest h1 h2 h3 ih =>
    intro l hl
    simp only [splitLines] at hl
    have hc1 : c ≠ '\r' := by
      intro h; subst h
      cases rest with
      | nil => exact h2 rfl
      | cons d ds =>
        by_cases hd : d = '\n'
        · subst hd; exact h1 ds rfl rfl
        · exact h2 rfl
    have hc2 : c ≠ '\n' := fun h => h3 h
    rcases hsp : splitLines rest with _ | ⟨l0, ls⟩
    · exact absurd hsp (splitLines_ne_nil rest)
    · rw [hsp] at hl
      simp only [consHead, List.mem_cons] at hl
      rcases hl with h' | h'
      · subst h'
        have hcl : lineClean l0 := ih l0 (by rw [hsp]; exact List.mem_cons_self _ _)
        refine ⟨?_, ?_⟩
        · simp only [List.mem_cons]
          rintro (h | h)
          · exact hc1 h.symm
          · exact hcl.1 h
        · simp only [List.mem_cons]
          rintro (h | h)
          · exact hc2 h.symm
          · exact hcl.2 h
      · exact ih l (by rw [hsp]; exact List.mem_cons_of_mem _ h')

theorem splitLines_cons_other (c : Char) (rest : List Char)
    (h1 : c ≠ '\r') (h2 : c ≠ '\n') :
    splitLines (c :: rest) = consHead c (splitLines rest) := by
  rw [splitLines.eq_def]
  split <;> simp_all

theorem splitLines_of_clean (l : List Char) (h : lineClean l) : splitLines l = [l] := by
  induction l with
  | nil => rfl
  | cons c rest ih =>
    have hc1 : c ≠ '\r' := fun hh => h.1 (by simp [hh])
    have hc2 : c ≠ '\n' := fun hh => h.2 (by simp [hh])
    have hrest : lineClean rest :=
      ⟨fun hh => h.1 (List.mem_cons_of_mem _ hh), fun hh => h.2 (List.mem_cons_of_mem _ hh)⟩
    rw [splitLines_cons_other c rest hc1 hc2, ih hrest]; rfl

theorem splitLines_append_crlf (l t : List Char) (h : lineClean l) :
    splitLines (l ++ '\r' :: '\n' :: t) = l :: splitLines t := by
  induction l with
  | nil => simp [splitLines]
  | cons c rest ih =>
    have hc1 : c ≠ '\r' := fun hh => h.1 (by simp [hh])
    have hc2 : c ≠ '\n' := fun hh => h.2 (by simp [hh])
    have hrest : lineClean rest :=
      ⟨fun hh => h.1 (List.mem_cons_of_mem _ hh), fun hh => h.2 (List.mem_cons_of_mem _ hh)⟩
    have hr := ih hrest
    simp only [List.cons_append, splitLines_cons_other c _ hc1 hc2, hr, consHead]

theorem splitLines_joinCRLF (ls : List (List Char)) (hne : ls ≠ [])
    (hcl : ∀ l ∈ ls, lineClean l) : splitLines (joinCRLF ls) = ls := by
  induction ls with
  | nil => exact absurd rfl hne
  | cons l rest ih =>
    cases rest with
    | nil =>
      simp only [joinCRLF]
      exact splitLines_of_clean l (hcl l (List.mem_cons_self _ _))
    | cons l2 rest2 =>
      have hstep : joinCRLF (l :: l2 :: rest2) = l ++ '\r' :: '\n' :: joinCRLF (l2 :: rest2) := rfl
      rw [hstep, splitLines_append_crlf l _ (hcl l (List.mem_cons_self _ _))]
      rw [ih (by simp) (fun x hx => hcl x (List.mem_cons_of_mem _ hx))]

theorem crlfNormalizedB_cons_other (c : Char) (rest : List Char)
    (h1 : c ≠ '\r') (h2 : c ≠ '\n') :
    crlfNormalizedB (c :: rest) = crlfNormalizedB rest := by
  rw [crlfNormalizedB.eq_def]
  split <;> simp_all

theorem crlfNormalizedB_of_clean (l : List Char) (h : lineClean l) :
    crlfNormalizedB l = true := by
  induction l with
  | nil => rfl
  | cons c rest ih =>
    have hc1 : c ≠ '\r' := fun hh => h.1 (by simp [hh])
    have hc2 : c ≠ '\n' := fun hh => h.2 (by simp [hh])
    have hrest : lineClean rest :=
      ⟨fun hh => h.1 (List.mem_cons_of_mem _ hh), fun hh => h.2 (List.mem_cons_of_mem _ hh)⟩
    rw [crlfNormalizedB_cons_other c rest hc1 hc2]
    exact ih hrest

theorem crlfNormalizedB_clean_crlf (l t : List Char) (h : lineClean l)
    (ht : crlfNormalizedB t = true) :
    crlfNormalizedB (l ++ '\r' :: '\n' :: t) = true := by
  induction l with
  | nil => simpa [crlfNormalizedB]
  | cons c rest ih =>
    have hc1 : c ≠ '\r' := fun hh => h.1 (by simp [hh])
    have hc2 : c ≠ '\n' := fun hh => h.2 (by simp [hh])
    have hrest : lineClean rest :=
      ⟨fun hh => h.1 (List.mem_cons_of_mem _ hh), fun hh => h.2 (List.mem_cons_of_mem _ hh)⟩
    rw [List.cons_append, crlfNormalizedB_cons_other c _ hc1 hc2]
    exact ih hrest

theorem crlfNormalizedB_joinCRLF (ls : List (List Char))
    (hcl : ∀ l ∈ ls, lineClean l) : crlfNormalizedB (joinCRLF ls) = true := by
  induction ls with
  | nil => rfl
  | cons l rest ih =>
    cases rest with
    | nil => exact crlfNormalizedB_of_clean l (hcl l (List.mem_cons_self _ _))
    | cons l2 rest2 =>
      have hstep : joinCRLF (l :: l2 :: rest2) = l ++ '\r' :: '\n' :: joinCRLF (l2 :: rest2) := rfl
      rw [hstep]
      exact crlfNormalizedB_clean_crlf l _ (hcl l (List.mem_cons_self _ _))
        (ih (fun x hx => hcl x (List.mem_cons_of_mem _ hx)))

/-! ## Encodings

The session encoding is `"ascii"` initially and `"utf-8"` after the UTF8
command.  `str.encode("ascii")` fails on any code point ≥ 128;
`str.encode("utf-8")` succeeds on every code point (Lean `Char` carries
Unicode scalar values, as do strings produced by decoding). -/

/-- The two session encodings. -/
inductive Enc where
  | ascii
  | utf8
deriving DecidableEq, Repr

/-- UTF-8 bytes of one code point. -/
def utf8EncodeChar (c : Char) : List Nat :=
  let n := c.toNat
  if n < 128 then [n]
  else if n < 2048 then [192 + n / 64, 128 + n % 64]
  else if n < 65536 then [224 + n / 4096, 128 + (n / 64) % 64, 128 + n % 64]
  else [240 + n / 262144, 128 + (n / 4096) % 64, 128 + (n / 64) % 64, 128 + n % 64]

/-- UTF-8 bytes of a string. -/
def utf8Encode (s : List Char) : List Nat := (s.map utf8EncodeChar).flatten

/-- Model of `str.encode(encoding)`: `none` models a raised
`UnicodeEncodeError`. -/
def encodeStr : Enc → List Char → Option (List Nat)
  | .ascii, s => if s.all (fun c => c.toNat < 128) then some (s.map Char.toNat) else none
  | .utf8, s => some (utf8Encode s)

theorem utf8Encode_append (a b : List Char) :
    utf8Encode (a ++ b) = utf8Encode a ++ utf8Encode b := by
  simp [utf8Encode]

theorem encodeStr_append_some (e : Enc) (a b : List Char) (bs : List Nat)
    (h : encodeStr e (a ++ b) = some bs) :
    ∃ ba bb, encodeStr e a = some ba ∧ encodeStr e b = some bb ∧ bs = ba ++ bb := by
  cases e with
  | ascii =>
    simp only [encodeStr, List.all_append, Bool.and_eq_true] at h ⊢
    by_cases ha : a.all (fun c => c.toNat < 128)
    · by_cases hb : b.all (fun c => c.toNat < 128)
      · rw [if_pos ⟨ha, hb⟩] at h
        refine ⟨a.map Char.toNat, b.map Char.toNat, ?_, ?_, ?_⟩
        · simp [ha]
        · simp [hb]
        · simp at h; simp [← h]
      · rw [if_neg (by simp [hb])] at h; exact absurd h (by simp)
    · rw [if_neg (by simp [ha])] at h; exact absurd h (by simp)
  | utf8 =>
    simp only [encodeStr, Option.some.injEq] at h
    exact ⟨utf8Encode a, utf8Encode b, rfl, rfl, by rw [← h, utf8Encode_append]⟩

/-! ### endsCRLF lemmas -/

theorem endsCRLF_true_elim (l : List Char) (h : endsCRLF l = true) :
    ∃ t, l = t ++ ['\r', '\n'] := by
  unfold endsCRLF at h
  rcases hl : l.reverse with _ | ⟨x, _ | ⟨y, rest⟩⟩ <;> rw [hl] at h
  · simp at h
  · simp at h
  · simp only [Bool.and_eq_true, beq_iff_eq] at h
    refine ⟨rest.reverse, ?_⟩
    have := congrArg List.reverse hl
    simpa [h.1, h.2] using this

theorem endsCRLF_append_crlf (t : List Char) : endsCRLF (t ++ ['\r', '\n']) = true := by
  unfold endsCRLF
  rw [List.reverse_append]
  rfl

theorem endsCRLF_congr_append (a b m : List Char)
    (ha : endsCRLF a = true) (hb : endsCRLF b = true) :
    endsCRLF (a ++ m) = endsCRLF (b ++ m) := by
  obtain ⟨ta, hta⟩ := endsCRLF_true_elim a ha
  obtain ⟨tb, htb⟩ := endsCRLF_true_elim b hb
  subst hta htb
  unfold endsCRLF
  rw [List.reverse_append, List.reverse_append, List.reverse_append, List.reverse_append]
  rcases m.reverse with _ | ⟨x, _ | ⟨y, rest⟩⟩ <;>
    simp only [List.nil_append, List.cons_append, List.reverse_cons, List.reverse_nil,
      List.append_assoc]

/-! ## Response values (`SendDataToClientException`, `POP3ResponseCodes`) -/

/-- The POP3 extended response codes of `POP3ResponseCodes.Codes`. -/
inductive RespCode where
  | inUse
  | sysTemp
  | sysPerm
  | auth
  | utf8
  | xPop3sfReadOnly
deriving DecidableEq, Repr

/-- The wire form (`Codes.<X>.value`) of a response code. -/
def RespCode.wire : RespCode → String
  | .inUse => "IN-USE"
  | .sysTemp => "SYS/TEMP"
  | .sysPerm => "SYS/PERM"
  | .auth => "AUTH"
  | .utf8 => "UTF8"
  | .xPop3sfReadOnly => "X-POP3SF-READ-ONLY"

/-- The data carried by a `SendDataToClientException`. -/
structure Response where
  success : Bool
  code : Option RespCode
  message : String
  humanReadable : Bool
  multiline : Option String
  forceCRLF : Bool
  closeConn : Bool
deriving DecidableEq, Repr

/-- `SendDataToClientException.ok`. -/
def Response.ok (m : String) : Response :=
  ⟨true, none, m, true, none, false, false⟩

/-- `SendDataToClientException.ok_human_unreadable`. -/
def Response.okHumanUnreadable (m : String) : Response :=
  ⟨true, none, m, false, none, false, false⟩

/-- `SendDataToClientException.ok_multiline`. -/
def Response.okMultiline (m body : String) (force : Bool) : Response :=
  ⟨true, none, m, true, some body, force, false⟩

/-- `SendDataToClientException.err`. -/
def Response.err (m : String) (code : Option RespCode) : Response :=
  ⟨false, code, m, true, none, false, false⟩

/-- `SendDataToClientException.err_internal`. -/
def Response.errInternal : Response :=
  Response.err "Internal server error" (some .sysTemp)

/-- `SendDataToClientException.err_read_only_mailbox_access`. -/
def Response.errReadOnlyAccess : Response :=
  Response.err "The mailbox access mode is set to read-only" (some .xPop3sfReadOnly)

/-- `SendDataToClientException.close_connection_after_sending_data`. -/
def Response.closeAfter (r : Response) : Response :=
  {r with closeConn := true}

/-- `SendDataToClientException._compose_the_first_line_of_the_message`. -/
def composeFirstLine (r : Response) (language : Option String) : List Char :=
  (if r.success then "+OK " else "-ERR ").toList
  ++ (match r.code with
      | some c => '[' :: c.wire.toList ++ [']', ' ']
      | none => [])
  ++ (match language, r.humanReadable with
      | some lang, true => lang.toList ++ [' ']
      | _, _ => [])
  ++ r.message.toList ++ ['\r', '\n']

/-- `SendDataToClientException.build_message` up to (and not including) the
final `.encode(...)` call: the response rendered as a string. -/
def buildMessageStr (r : Response) (language : Option String) : List Char :=
  let first := composeFirstLine r language
  match r.multiline with
  | none => first
  | some body =>
    let m := first ++ composeNextLines body.toList
    let m2 := if r.forceCRLF || !(endsCRLF m) then m ++ ['\r', '\n'] else m
    m2 ++ ['.', '\r', '\n']

/-- `SendDataToClientException.build_message`: the rendered string encoded
under the session encoding (`none` models the raised `UnicodeEncodeError`). -/
def buildMessageBytes (r : Response) (language : Option String) (e : Enc) :
    Option (List Nat) :=
  encodeStr e (buildMessageStr r language)

theorem composeFirstLine_endsCRLF (r : Response) (language : Option String) :
    endsCRLF (composeFirstLine r language) = true := by
  unfold composeFirstLine
  rw [show (if r.success then "+OK " else "-ERR ").toList
      ++ (match r.code with
          | some c => '[' :: c.wire.toList ++ [']', ' ']
          | none => [])
      ++ (match language, r.humanReadable with
          | some lang, true => lang.toList ++ [' ']
          | _, _ => [])
      ++ r.message.toList ++ ['\r', '\n']
      = ((if r.success then "+OK " else "-ERR ").toList
      ++ (match r.code with
          | some c => '[' :: c.wire.toList ++ [']', ' ']
          | none => [])
      ++ (match language, r.humanReadable with
          | some lang, true => lang.toList ++ [' ']
          | _, _ => [])
      ++ r.message.toList) ++ ['\r', '\n'] by simp]
  exact endsCRLF_append_crlf _

/-! ## Per-user exclusivity registry (`PerUserExclusivityEnsurer`)

The registry is a list of `_Client` entries; `add_client` scans it under a
lock and either refuses (returning `False`, list unchanged) or appends the
new entry (returning `True`).  `remove_client` filters by connection id. -/

/-- `PerUserExclusivityEnsurer._Client`. -/
structure ExClient where
  connectionId : Nat
  username : String
  readOnly : Bool
deriving DecidableEq, Repr

/-- `PerUserExclusivityEnsurer._add_client_locked`: refuse when some
existing entry has the same username and it is not the case that both the
new and the existing entry are read-only; otherwise append. -/
def addClient (clients : List ExClient) (cid : Nat) (u : String) (ro : Bool) :
    Bool × List ExClient :=
  if clients.any (fun c => u == c.username && !(ro && c.readOnly)) then
    (false, clients)
  else
    (true, clients ++ [⟨cid, u, ro⟩])

/-- `PerUserExclusivityEnsurer._remove_client_locked`. -/
def removeClient (clients : List ExClient) (cid : Nat) : List ExClient :=
  clients.filter (fun c => cid != c.connectionId)

/-- The entries of the registry belonging to one username. -/
def userEntries (clients : List ExClient) (u : String) : List ExClient :=
  clients.filter (fun c => c.username == u)

/-- The per-username shape required by the spec: no entries, or only
read-only entries, or exactly one read-write entry. -/
def userOk (l : List ExClient) : Prop :=
  l = [] ∨ (∀ c ∈ l, c.readOnly = true) ∨ (∃ c, l = [c] ∧ c.readOnly = false)

/-- The registry invariant: every username's entry set is `userOk`. -/
def registryOk (clients : List ExClient) : Prop :=
  ∀ u, userOk (userEntries clients u)

/-- One externally visible registry operation. -/
inductive RegOp where
  | add (cid : Nat) (u : String) (ro : Bool)
  | remove (cid : Nat)
deriving DecidableEq, Repr

/-- Apply one registry operation (the state change of `add_client` /
`remove_client`). -/
def applyRegOp (clients : List ExClient) : RegOp → List ExClient
  | .add cid u ro => (addClient clients cid u ro).2
  | .remove cid => removeClient clients cid

/-- Apply a sequence of registry operations, oldest first. -/
def applyRegOps (ops : List RegOp) (clients : List ExClient) : List ExClient :=
  ops.foldl applyRegOp clients

/-- The refusal condition scanned by `_add_client_locked`, as a proposition:
some existing entry has the new username and the pair is not read-only on
both sides. -/
def refuses (clients : List ExClient) (u : String) (ro : Bool) : Prop :=
  ∃ c ∈ clients, c.username = u ∧ (ro && c.readOnly) = false

theorem addClient_spec (clients : List ExClient) (cid : Nat) (u : String) (ro : Bool) :
    (refuses clients u ro → addClient clients cid u ro = (false, clients)) ∧
    (¬ refuses clients u ro →
      addClient clients cid u ro = (true, clients ++ [⟨cid, u, ro⟩])) := by
  constructor
  · intro h
    obtain ⟨c, hc, h1, h2⟩ := h
    unfold addClient
    rw [if_pos]
    exact List.any_eq_true.mpr ⟨c, hc, by simp [h1, h2]⟩
  · intro h
    unfold addClient
    rw [if_neg]
    intro hany
    obtain ⟨c, hc, hcond⟩ := List.any_eq_true.mp hany
    apply h
    simp only [Bool.and_eq_true, beq_iff_eq, Bool.not_eq_true'] at hcond
    exact ⟨c, hc, hcond.1.symm, hcond.2⟩

theorem not_refuses_elim {clients : List ExClient} {u : String} {ro : Bool}
    (h : ¬ refuses clients u ro) :
    ∀ c ∈ clients, c.username = u → ro = true ∧ c.readOnly = true := by
  intro c hc hcu
  rcases Bool.eq_false_or_eq_true (ro && c.readOnly) with hb | hb
  · simpa [Bool.and_eq_true] using hb
  · exact absurd ⟨c, hc, hcu, hb⟩ h

theorem userOk_sublist {l l' : List ExClient} (h : userOk l) (hs : List.Sublist l' l) :
    userOk l' := by
  rcases h with h | h | ⟨c, hc, hro⟩
  · subst h
    left
    exact List.sublist_nil.mp hs
  · right; left
    exact fun c hc => h c (hs.subset hc)
  · subst hc
    rcases List.sublist_singleton.mp hs with h' | h'
    · left; exact h'
    · right; right; exact ⟨c, h', hro⟩

theorem userEntries_append (a b : List ExClient) (u : String) :
    userEntries (a ++ b) u = userEntries a u ++ userEntries b u := by
  simp [userEntries]

theorem registryOk_nil : registryOk [] := fun _ => Or.inl rfl

theorem addClient_preserves (clients : List ExClient) (cid : Nat) (u : String)
    (ro : Bool) (h : registryOk clients) :
    registryOk (addClient clients cid u ro).2 := by
  by_cases hr : refuses clients u ro
  · rw [(addClient_spec clients cid u ro).1 hr]
    exact h
  · rw [(addClient_spec clients cid u ro).2 hr]
    intro v
    rw [userEntries_append]
    by_cases hv : u = v
    · subst hv
      have hnew : userEntries [⟨cid, u, ro⟩] u = [⟨cid, u, ro⟩] := by
        simp [userEntries]
      rw [hnew]
      rcases hold : userEntries clients u with _ | ⟨c0, cs⟩
      · simp only [List.nil_append]
        rcases Bool.eq_false_or_eq_true ro with hro | hro
        · subst hro
          refine Or.inr (Or.inl ?_)
          intro c hc
          simp only [List.mem_singleton] at hc
          rw [hc]
        · subst hro
          exact Or.inr (Or.inr ⟨⟨cid, u, false⟩, rfl, rfl⟩)
        -- some entry for u already exists; the scan accepted, so the new
        -- entry and all existing entries for u are read-only
      · have hc0 : c0 ∈ List.filter (fun c => c.username == u) clients := by
          show c0 ∈ userEntries clients u
          rw [hold]; exact List.mem_cons_self _ _
        have hc0f := List.mem_filter.mp hc0
        have hroc : ro = true ∧ c0.readOnly = true :=
          not_refuses_elim hr c0 hc0f.1 (by simpa using hc0f.2)
        right; left
        intro c hc
        rw [← hold, List.mem_append] at hc
        rcases hc with hc | hc
        · have hcf := List.mem_filter.mp (show c ∈ List.filter
            (fun c => c.username == u) clients from hc)
          exact (not_refuses_elim hr c hcf.1 (by simpa using hcf.2)).2
        · simp only [List.mem_singleton] at hc
          rw [hc]
          exact hroc.1
    · have hnew : userEntries [⟨cid, u, ro⟩] v = [] := by
        simp only [userEntries, List.filter]
        rw [show ((⟨cid, u, ro⟩ : ExClient).username == v) = false by
          simp [hv]]
      rw [hnew, List.append_nil]
      exact h v

theorem removeClient_preserves (clients : List ExClient) (cid : Nat)
    (h : registryOk clients) : registryOk (removeClient clients cid) := by
  intro u
  have hs : List.Sublist (userEntries (removeClient clients cid) u)
      (userEntries clients u) :=
    (List.filter_sublist clients).filter _
  exact userOk_sublist (h u) hs

theorem applyRegOps_preserves (ops : List RegOp) (clients : List ExClient)
    (h : registryOk clients) : registryOk (applyRegOps ops clients) := by
  induction ops generalizing clients with
  | nil => exact h
  | cons op rest ih =>
    cases op with
    | add cid u ro => exact ih _ (addClient_preserves clients cid u ro h)
    | remove cid => exact ih _ (removeClient_preserves clients cid h)

/-- Under the invariant, the scan refuses exactly when appending the new
entry would break the invariant. -/
theorem addClient_refused_iff_break (clients : List ExClient) (cid : Nat)
    (u : String) (ro : Bool) (h : registryOk clients) :
    (addClient clients cid u ro).1 = false ↔
      ¬ registryOk (clients ++ [⟨cid, u, ro⟩]) := by
  by_cases hr : refuses clients u ro
  · rw [(addClient_spec clients cid u ro).1 hr]
    simp only [true_iff]
    obtain ⟨c, hc, hcu, hcb⟩ := hr
    intro hok
    have hu := hok u
    rw [userEntries_append] at hu
    have hnew : userEntries [⟨cid, u, ro⟩] u = [⟨cid, u, ro⟩] := by simp [userEntries]
    rw [hnew] at hu
    have hcmem : c ∈ userEntries clients u :=
      List.mem_filter.mpr ⟨hc, by simp [hcu]⟩
    rcases hu with habs | hall | ⟨c1, hc1, hc1ro⟩
    · have : c ∈ userEntries clients u ++ [(⟨cid, u, ro⟩ : ExClient)] :=
        List.mem_append.mpr (Or.inl hcmem)
      rw [habs] at this
      simp at this
    · -- every entry for u (the new one and c included) is read-only,
      -- contradicting the refusal condition
      have h1 : (⟨cid, u, ro⟩ : ExClient).readOnly = true := hall _ (by simp)
      have h2 : c.readOnly = true :=
        hall c (List.mem_append.mpr (Or.inl hcmem))
      rw [show (⟨cid, u, ro⟩ : ExClient).readOnly = ro from rfl] at h1
      rw [h1, h2] at hcb
      simp at hcb
    · -- a one-element list equal to a concatenation with ≥ 2 elements
      have hlen := congrArg List.length hc1
      simp only [List.length_append, List.length_cons, List.length_nil] at hlen
      have h0 : (userEntries clients u).length = 0 := by omega
      rw [List.length_eq_zero.mp h0] at hcmem
      simp at hcmem
  · have hp := addClient_preserves clients cid u ro h
    rw [(addClient_spec clients cid u ro).2 hr] at hp
    rw [(addClient_spec clients cid u ro).2 hr]
    constructor
    · intro hf
      exact absurd hf (by simp)
    · intro hbreak
      exact absurd hp hbreak

/-- `add_client` leaves the list unchanged when it refuses and appends the
new entry when it accepts. -/
theorem addClient_state (clients : List ExClient) (cid : Nat) (u : String)
    (ro : Bool) :
    ((addClient clients cid u ro).1 = false → (addClient clients cid u ro).2 = clients) ∧
    ((addClient clients cid u ro).1 = true →
      (addClient clients cid u ro).2 = clients ++ [⟨cid, u, ro⟩]) := by
  unfold addClient
  split <;> simp

/-! ## Session model

One accepted connection owns a `ClientStatusHolder`, a fresh adapter and a
view of the process-wide exclusivity registry.  Underlying adapter calls
(`AdapterThreadLockingWrapper`) are recorded in an event log so that
"method was (not) invoked" claims can be stated; the `time.sleep` of the
failed-login punishment is recorded the same way.  Adapter deletion marks
are session-scoped state, per the adapter contract all bundled adapters
implement (unmarked initially; `mark` sets one, `unmark` clears all). -/

/-- Observable calls made on behalf of one session. -/
inductive Event where
  | connectionOpened
  | readOnlyModeAllowed
  | verifyLoginCredentials (u p : String)
  | loginSuccessful (u : String) (ro : Bool)
  | getMessageCount
  | getMessageContent (i : Int) (e : Enc)
  | getMessageUniqueId (i : Int)
  | isMessageMarkedAsDeleted (i : Int)
  | markMessageAsDeleted (i : Int)
  | unmarkMessagesMarkedAsDeleted
  | commitDeletions
  | connectionClosed
  | sleep (ms : Nat)
deriving DecidableEq, Repr

/-- The pure behaviour of an adapter (`AdapterBase`), with the calls assumed
to return normally. -/
structure Adapter where
  readOnlyModeAllowed : Bool
  verifyLoginCredentials : String → String → Bool
  messageCount : Int
  messageContent : Int → Enc → String
  messageUniqueId : Int → String

/-- The `Settings` values the session engine reads. -/
structure Config where
  maxInvalidCommands : Int
  maxInvalidPasswords : Int
  failedLoginDelay : Nat
deriving DecidableEq, Repr

/-- `ClientStatusHolder` (the per-session mutable fields). -/
structure ClientStatus where
  authenticated : Bool
  username : Option String
  authorizationStateUsername : Option String
  readOnlyMailboxAccess : Bool
  encoding : Enc
  customLanguage : Option String
  invalidCommandCount : Nat
  invalidPasswordCount : Nat
deriving DecidableEq, Repr

/-- The initial `ClientStatusHolder` state set up by `__init__`. -/
def ClientStatus.init : ClientStatus :=
  ⟨false, none, none, false, .ascii, none, 0, 0⟩

/-- All state one session can observe or change. -/
structure Session where
  connectionId : Nat
  config : Config
  adapter : Adapter
  status : ClientStatus
  marks : List Int
  registry : List ExClient
  events : List Event

/-- A command-handler step ends either in a raised
`SendDataToClientException` carrying a response, or in a normal return. -/
inductive CmdOut (α : Type) where
  | raised (r : Response)
  | ret (a : α)

/-- The state-plus-response monad the handlers run in: state survives a
raise (Python exceptions do not roll mutations back). -/
def M (α : Type) : Type := Session → Session × CmdOut α

/-- Return normally. -/
def mpure {α : Type} (a : α) : M α := fun s => (s, .ret a)

/-- Raise a `SendDataToClientException`. -/
def mthrow {α : Type} (r : Response) : M α := fun s => (s, .raised r)

/-- Sequencing: a raise aborts the continuation. -/
def mbind {α β : Type} (x : M α) (f : α → M β) : M β := fun s =>
  match x s with
  | (s1, .raised r) => (s1, .raised r)
  | (s1, .ret a) => f a s1

/-- Append an event to the session log. -/
def logE (e : Event) (s : Session) : Session :=
  {s with events := s.events ++ [e]}

/-! ## `AdapterHelperWrapper` -/

/-- `AdapterHelperWrapper.read_only_mode_allowed`. -/
def readOnlyModeAllowedM : M Bool := fun s =>
  (logE .readOnlyModeAllowed s, .ret s.adapter.readOnlyModeAllowed)

/-- `AdapterHelperWrapper._perform_invalid_password_punishments`. -/
def performInvalidPasswordPunishments : M Unit := fun s =>
  let s1 := logE (.sleep s.config.failedLoginDelay) s
  if s1.config.maxInvalidPasswords ≥ 0 then
    let s2 := {s1 with status :=
      {s1.status with invalidPasswordCount := s1.status.invalidPasswordCount + 1}}
    if (s2.status.invalidPasswordCount : Int) > s2.config.maxInvalidPasswords then
      (s2, .raised ((Response.err "Too many incorrect passwords" (some .auth)).closeAfter))
    else
      (s2, .ret ())
  else
    (s1, .ret ())

/-- `AdapterHelperWrapper.verify_login_credentials`. -/
def verifyLoginCredentialsM (u p : String) : M Bool := fun s =>
  let s1 := logE (.verifyLoginCredentials u p) s
  if s.adapter.verifyLoginCredentials u p then
    (s1, .ret true)
  else
    match performInvalidPasswordPunishments s1 with
    | (s2, .raised r) => (s2, .raised r)
    | (s2, .ret _) => (s2, .ret false)

/-- `AdapterHelperWrapper.get_message_count`. -/
def getMessageCountM : M Int := fun s =>
  let s1 := logE .getMessageCount s
  if s.adapter.messageCount < 0 then (s1, .raised Response.errInternal)
  else (s1, .ret s.adapter.messageCount)

/-- `AdapterHelperWrapper.get_message_content`. -/
def getMessageContentM (i : Int) : M String := fun s =>
  (logE (.getMessageContent i s.status.encoding) s,
   .ret (s.adapter.messageContent i s.status.encoding))

/-- `AdapterHelperWrapper.is_message_marked_as_deleted`: short-circuits to
false in read-only mode without touching the adapter. -/
def isMessageMarkedAsDeletedM (i : Int) : M Bool := fun s =>
  if s.status.readOnlyMailboxAccess then (s, .ret false)
  else (logE (.isMessageMarkedAsDeleted i) s, .ret (s.marks.contains i))

/-- `AdapterHelperWrapper.mark_message_as_deleted`. -/
def markMessageAsDeletedM (i : Int) : M Unit := fun s =>
  if s.status.readOnlyMailboxAccess then (s, .raised Response.errReadOnlyAccess)
  else ({logE (.markMessageAsDeleted i) s with marks := s.marks ++ [i]}, .ret ())

/-- `AdapterHelperWrapper.unmark_messages_marked_as_deleted`. -/
def unmarkMessagesMarkedAsDeletedM : M Unit := fun s =>
  if s.status.readOnlyMailboxAccess then (s, .raised Response.errReadOnlyAccess)
  else ({logE .unmarkMessagesMarkedAsDeleted s with marks := []}, .ret ())

/-- `AdapterHelperWrapper.commit_deletions`: silently skipped in read-only
mode. -/
def commitDeletionsM : M Unit := fun s =>
  if s.status.readOnlyMailboxAccess then (s, .ret ())
  else (logE .commitDeletions s, .ret ())

/-- `AdapterHelperWrapper.get_message_size`: newline-normalise the content,
then its byte length under the session encoding; a `UnicodeEncodeError`
becomes `-ERR [UTF8]`. -/
def getMessageSizeM (i : Int) : M Nat :=
  mbind (getMessageContentM i) fun content => fun s =>
    match encodeStr s.status.encoding (normalizeNewlines content.toList) with
    | some bs => (s, .ret bs.length)
    | none => (s, .raised (Response.err
        "The message, whose size was obtained, contains a non-ASCII character (the UTF-8 mode is not enabled)"
        (some .utf8)))

/-- The character/length rule `[\x21-\x7e]{1,70}` on a char list. -/
def uidChars (cs : List Char) : Bool :=
  decide (1 ≤ cs.length) && decide (cs.length ≤ 70)
    && cs.all (fun c => decide (33 ≤ c.toNat) && decide (c.toNat ≤ 126))

/-- Model of `re.match(r'^[\x21-\x7e]{1,70}$', uid)`: in Python, `$` also
matches just before one trailing newline. -/
def uidOk (uid : String) : Bool :=
  let cs := uid.toList
  uidChars cs || (cs.getLast? == some '\n' && uidChars cs.dropLast)

/-- `AdapterHelperWrapper.get_message_unique_id`. -/
def getMessageUniqueIdM (i : Int) : M String := fun s =>
  let s1 := logE (.getMessageUniqueId i) s
  let uid := s.adapter.messageUniqueId i
  if uidOk uid then (s1, .ret uid) else (s1, .raised Response.errInternal)

/-- `range(count)` as a list of `Int` indices. -/
def intRange (n : Int) : List Int := (List.range n.toNat).map Int.ofNat

/-- The loop of `AdapterHelperWrapper.get_undeleted_message_count`. -/
def countUndeletedAux : List Int → Nat → M Nat
  | [], acc => mpure acc
  | i :: rest, acc =>
    mbind (isMessageMarkedAsDeletedM i) fun b =>
      countUndeletedAux rest (if b then acc else acc + 1)

/-- `AdapterHelperWrapper.get_undeleted_message_count`. -/
def getUndeletedMessageCountM : M Nat :=
  mbind getMessageCountM fun count => countUndeletedAux (intRange count) 0

/-- The loop of `AdapterHelperWrapper.get_all_undeleted_messages_sizes`. -/
def allUndeletedSizesAux : List Int → List (Int × Nat) → M (List (Int × Nat))
  | [], acc => mpure acc
  | i :: rest, acc =>
    mbind (isMessageMarkedAsDeletedM i) fun b =>
      if b then allUndeletedSizesAux rest acc
      else mbind (getMessageSizeM i) fun sz =>
        allUndeletedSizesAux rest (acc ++ [(i + 1, sz)])

/-- `AdapterHelperWrapper.get_all_undeleted_messages_sizes` (message
numbers are one-based: `convert_index_to_message_number`). -/
def getAllUndeletedSizesM : M (List (Int × Nat)) :=
  mbind getMessageCountM fun count => allUndeletedSizesAux (intRange count) []

/-- The loop of `AdapterHelperWrapper.get_all_undeleted_messages_unique_ids`. -/
def allUndeletedUidsAux : List Int → List (Int × String) → M (List (Int × String))
  | [], acc => mpure acc
  | i :: rest, acc =>
    mbind (isMessageMarkedAsDeletedM i) fun b =>
      if b then allUndeletedUidsAux rest acc
      else mbind (getMessageUniqueIdM i) fun uid =>
        allUndeletedUidsAux rest (acc ++ [(i + 1, uid)])

/-- `AdapterHelperWrapper.get_all_undeleted_messages_unique_ids`, including
the final duplicate check. -/
def getAllUndeletedUniqueIdsM : M (List (Int × String)) :=
  mbind getMessageCountM fun count =>
  mbind (allUndeletedUidsAux (intRange count) []) fun lst => fun s =>
    if (lst.map Prod.snd).Nodup then (s, .ret lst)
    else (s, .raised Response.errInternal)

/-- `AdapterHelperWrapper.get_headers_and_first_n_lines_of_a_message`,
pure part: headers (the maximal run of nonempty lines), then the blank
separator line if present, then the first `n` body lines, re-joined with
CRLF. -/
def topContent (content : String) (n : Int) : String :=
  let allLines := splitLines content.toList
  let headers := allLines.takeWhile (fun l => !l.isEmpty)
  let rest1 := allLines.dropWhile (fun l => !l.isEmpty)
  String.mk (joinCRLF (headers ++ rest1.take 1 ++ (rest1.drop 1).take n.toNat))

/-- Number of body lines (lines after the blank header/body separator). -/
def bodyLineCount (content : String) : Nat :=
  (((splitLines content.toList).dropWhile (fun l => !l.isEmpty)).drop 1).length

/-- `AdapterHelperWrapper.get_headers_and_first_n_lines_of_a_message`. -/
def getHeadersAndFirstNLinesM (i n : Int) : M String :=
  mbind (getMessageContentM i) fun content => mpure (topContent content n)

/-- `ClientStatusHolder.authentication_successful`: the exclusivity
insertion, the status flags, and the `login_successful` adapter call. -/
def authenticationSuccessfulM (username : String) : M Unit := fun s =>
  let res := addClient s.registry s.connectionId username s.status.readOnlyMailboxAccess
  if res.1 then
    let s1 := {s with registry := res.2,
                      status := {s.status with authenticated := true,
                                               username := some username,
                                               authorizationStateUsername := none}}
    (logE (.loginSuccessful username s.status.readOnlyMailboxAccess) s1, .ret ())
  else
    (s, .raised (Response.err "This user is logged in in another session" (some .inUse)))

/-! ## Command handlers (`ClientCommandHandler`) -/

/-- ASCII decimal digit. -/
def isPyDigit (c : Char) : Bool := decide (48 ≤ c.toNat) && decide (c.toNat ≤ 57)

/-- Value of a digit string. -/
def digitsToNat (cs : List Char) : Nat :=
  cs.foldl (fun acc c => acc * 10 + (c.toNat - 48)) 0

/-- A nonempty all-digit string. -/
def parseDigits (cs : List Char) : Option Nat :=
  if !cs.isEmpty && cs.all isPyDigit then some (digitsToNat cs) else none

/-- Model of Python `int(str)` for the command arguments: an optional sign
followed by decimal digits (`ValueError` is `none`).  The surrounding
whitespace and digit-group underscores Python also accepts cannot occur
here: arguments are produced by a whitespace split. -/
def parsePyInt (cs : List Char) : Option Int :=
  match cs with
  | '+' :: rest => (parseDigits rest).map (fun n => (n : Int))
  | '-' :: rest => (parseDigits rest).map (fun n => -(n : Int))
  | _ => (parseDigits cs).map (fun n => (n : Int))

/-- Model of `sep.join(pieces)`. -/
def pyJoin (sep : String) : List String → String
  | [] => ""
  | [a] => a
  | a :: rest => a ++ sep ++ pyJoin sep rest

/-- `ClientCommandHandler._check_argument_count`. -/
def checkArgumentCount (args : List String) (allowed : List Nat) : M Unit :=
  if allowed.contains args.length then mpure ()
  else mthrow (Response.err "Invalid argument count" none)

/-- `ClientCommandHandler._parse_message_number_argument_to_index`: decimal
integer minus one; range check (Python short-circuits `index < 0` before
calling `get_message_count`); deleted check. -/
def parseMessageNumberToIndexM (msgNum : String) : M Int :=
  match parsePyInt msgNum.toList with
  | none => mthrow (Response.err "Invalid message number (must be an integer)" none)
  | some v =>
    let index := v - 1
    if index < 0 then
      mthrow (Response.err "Invalid message number (out of range)" none)
    else
      mbind getMessageCountM fun count =>
      if index ≥ count then
        mthrow (Response.err "Invalid message number (out of range)" none)
      else
        mbind (isMessageMarkedAsDeletedM index) fun b =>
        if b then
          mthrow (Response.err "Invalid message number (message marked as deleted)" none)
        else mpure index

/-- `ClientCommandHandler._parse_number_of_lines_argument`. -/
def parseNumberOfLinesM (nStr : String) : M Int :=
  match parsePyInt nStr.toList with
  | none => mthrow (Response.err "Invalid number of lines (must be an integer)" none)
  | some n =>
    if n < 0 then mthrow (Response.err "Invalid number of lines (out of range)" none)
    else mpure n

/-- `ClientCommandHandler._invalid_command`. -/
def invalidCommandM : M Unit := fun s =>
  if s.config.maxInvalidCommands ≥ 0 then
    let s1 := {s with status :=
      {s.status with invalidCommandCount := s.status.invalidCommandCount + 1}}
    if (s1.status.invalidCommandCount : Int) > s1.config.maxInvalidCommands then
      (s1, .raised ((Response.err "Too many invalid commands" none).closeAfter))
    else
      (s1, .raised (Response.err "Invalid command" none))
  else
    (s, .raised (Response.err "Invalid command" none))

/-- `ClientCommandHandler._command_capa`. -/
def commandCapa (args : List String) : M Unit :=
  mbind (checkArgumentCount args [0]) fun _ =>
  mbind readOnlyModeAllowedM fun roAllowed =>
  let capabilities := ["USER", "TOP", "UIDL", "RESP-CODES", "AUTH-RESP-CODE",
    "UTF8 USER", "LANG", "IMPLEMENTATION POP3SF"]
    ++ (if roAllowed then ["X-POP3SF-READ-ONLY"] else [])
  mthrow (Response.okMultiline "Listing all capabilities"
    (pyJoin "\r\n" capabilities) false)

/-- `ClientCommandHandler._command_quit_in_authorization_state`. -/
def commandQuitAuth (args : List String) : M Unit :=
  mbind (checkArgumentCount args [0]) fun _ =>
  mthrow ((Response.ok "Session is ending (nobody was logged in)").closeAfter)

/-- `ClientCommandHandler._command_quit_in_transaction_state`. -/
def commandQuitTrans (args : List String) : M Unit :=
  mbind (checkArgumentCount args [0]) fun _ =>
  mbind commitDeletionsM fun _ =>
  mthrow ((Response.ok "Session is ending (an user was logged in)").closeAfter)

/-- `ClientCommandHandler._command_xpro`. -/
def commandXpro (args : List String) : M Unit :=
  mbind (checkArgumentCount args [0]) fun _ =>
  mbind readOnlyModeAllowedM fun roAllowed =>
  if !roAllowed then
    mthrow (Response.err "Read-only mailbox access mode is not allowed"
      (some .xPop3sfReadOnly))
  else
    mbind (fun s => ({s with status := {s.status with readOnlyMailboxAccess := true}},
      CmdOut.ret ())) fun _ =>
    mthrow (Response.ok "Mailbox access mode switched to read-only")

/-- `ClientCommandHandler._command_utf8`. -/
def commandUtf8 (args : List String) : M Unit :=
  mbind (checkArgumentCount args [0]) fun _ =>
  mbind (fun s => ({s with status := {s.status with encoding := Enc.utf8}},
    CmdOut.ret ())) fun _ =>
  mthrow (Response.ok "UTF-8 support was enabled for this connection")

/-- `ClientCommandHandler._command_lang`. -/
def commandLang (args : List String) : M Unit :=
  mbind (checkArgumentCount args [0, 1]) fun _ =>
  if args.length = 0 then
    mthrow (Response.okMultiline "Listing all languages" "en English" false)
  else if args.headD "" = "*" ∨ args.headD "" = "en" then
    mbind (fun s => ({s with status := {s.status with customLanguage := some "en"}},
      CmdOut.ret ())) fun _ =>
    mthrow (Response.ok "The response text language was changed to English")
  else
    mthrow (Response.err "Invalid language tag" none)

/-- `ClientCommandHandler._command_noop`. -/
def commandNoop (args : List String) : M Unit :=
  mbind (checkArgumentCount args [0]) fun _ =>
  mthrow (Response.ok "Nothing happened")

/-- `ClientCommandHandler._command_user`. -/
def commandUser (args : List String) : M Unit :=
  mbind (checkArgumentCount args [1]) fun _ =>
  mbind (fun s => ({s with status :=
    {s.status with authorizationStateUsername := some (args.headD "")}},
    CmdOut.ret ())) fun _ =>
  mthrow (Response.ok "Username accepted")

/-- `ClientCommandHandler._command_pass`.  Note the commented-out argument
count check in the source: `PASS` has none. -/
def commandPass (args : List String) : M Unit :=
  mbind (fun s => (s, CmdOut.ret s.status.authorizationStateUsername)) fun uOpt =>
  match uOpt with
  | none => mthrow (Response.err "No username was sent using the USER command" (some .auth))
  | some username =>
    let password := pyJoin " " args
    if password = "" then
      mthrow (Response.err "Empty password" (some .auth))
    else
      mbind (verifyLoginCredentialsM username password) fun success =>
      if !success then
        mthrow (Response.err "Incorrect username or password" (some .auth))
      else
        mbind (authenticationSuccessfulM username) fun _ =>
        mbind (fun s => (s, CmdOut.ret s.status.readOnlyMailboxAccess)) fun ro =>
        mthrow (Response.ok ("User successfully logged in"
          ++ (if ro then " (read-only)" else "")))

/-- `ClientCommandHandler._command_stat`. -/
def commandStat (args : List String) : M Unit :=
  mbind (checkArgumentCount args [0]) fun _ =>
  mbind getUndeletedMessageCountM fun messageCount =>
  mbind getAllUndeletedSizesM fun sizes =>
  let total := sizes.foldl (fun carry item => carry + item.2) 0
  mthrow (Response.okHumanUnreadable (toString messageCount ++ " " ++ toString total))

/-- `ClientCommandHandler._command_list`. -/
def commandList (args : List String) : M Unit :=
  mbind (checkArgumentCount args [0, 1]) fun _ =>
  if args.length = 0 then
    mbind getAllUndeletedSizesM fun sizes =>
    let listing := pyJoin "\r\n"
      (sizes.map (fun p => toString p.1 ++ " " ++ toString p.2))
    mthrow (Response.okMultiline ("Listing all messages" ++ aposS ++ " sizes") listing false)
  else
    mbind (parseMessageNumberToIndexM (args.headD "")) fun index =>
    mbind (getMessageSizeM index) fun size =>
    mthrow (Response.okHumanUnreadable (toString (index + 1) ++ " " ++ toString size))

/-- `ClientCommandHandler._command_uidl`. -/
def commandUidl (args : List String) : M Unit :=
  mbind (checkArgumentCount args [0, 1]) fun _ =>
  if args.length = 0 then
    mbind getAllUndeletedUniqueIdsM fun uids =>
    let listing := pyJoin "\r\n"
      (uids.map (fun p => toString p.1 ++ " " ++ p.2))
    mthrow (Response.okMultiline ("Listing all messages" ++ aposS ++ " unique IDs") listing false)
  else
    mbind (parseMessageNumberToIndexM (args.headD "")) fun index =>
    mbind (getMessageUniqueIdM index) fun uid =>
    mthrow (Response.okHumanUnreadable (toString (index + 1) ++ " " ++ uid))

/-- `ClientCommandHandler._command_retr`. -/
def commandRetr (args : List String) : M Unit :=
  mbind (checkArgumentCount args [1]) fun _ =>
  mbind (parseMessageNumberToIndexM (args.headD "")) fun index =>
  mbind (getMessageContentM index) fun content =>
  mthrow (Response.okMultiline ("Sending the message" ++ aposS ++ "s content") content false)

/-- `ClientCommandHandler._command_top`. -/
def commandTop (args : List String) : M Unit :=
  mbind (checkArgumentCount args [2]) fun _ =>
  mbind (parseMessageNumberToIndexM (args.headD "")) fun index =>
  mbind (parseNumberOfLinesM ((args.drop 1).headD "")) fun n =>
  mbind (getHeadersAndFirstNLinesM index n) fun requested =>
  mthrow (Response.okMultiline ("Sending the message" ++ aposS ++ "s partial content")
    requested (n == 0))

/-- `ClientCommandHandler._command_dele`. -/
def commandDele (args : List String) : M Unit :=
  mbind (checkArgumentCount args [1]) fun _ =>
  mbind (parseMessageNumberToIndexM (args.headD "")) fun index =>
  mbind (markMessageAsDeletedM index) fun _ =>
  mthrow (Response.ok "The message was marked as deleted")

/-- `ClientCommandHandler._command_rset`. -/
def commandRset (args : List String) : M Unit :=
  mbind (checkArgumentCount args [0]) fun _ =>
  mbind unmarkMessagesMarkedAsDeletedM fun _ =>
  mthrow (Response.ok "Messages marked as deleted were unmarked")

/-- `ClientCommandHandler._handle_authorization_state_command`'s dispatch
table. -/
def dispatchAuthorizationState (cmd : String) (args : List String) : M Unit :=
  if cmd = "CAPA" then commandCapa args
  else if cmd = "QUIT" then commandQuitAuth args
  else if cmd = "XPRO" then commandXpro args
  else if cmd = "UTF8" then commandUtf8 args
  else if cmd = "LANG" then commandLang args
  else if cmd = "USER" then commandUser args
  else if cmd = "PASS" then commandPass args
  else invalidCommandM

/-- `ClientCommandHandler._handle_transaction_state_command`'s dispatch
table. -/
def dispatchTransactionState (cmd : String) (args : List String) : M Unit :=
  if cmd = "CAPA" then commandCapa args
  else if cmd = "LANG" then commandLang args
  else if cmd = "NOOP" then commandNoop args
  else if cmd = "QUIT" then commandQuitTrans args
  else if cmd = "STAT" then commandStat args
  else if cmd = "LIST" then commandList args
  else if cmd = "UIDL" then commandUidl args
  else if cmd = "RETR" then commandRetr args
  else if cmd = "TOP" then commandTop args
  else if cmd = "DELE" then commandDele args
  else if cmd = "RSET" then commandRset args
  else invalidCommandM

/-- `ClientCommandHandler.handle_command`. -/
def handleCommand (cmd : String) (args : List String) : M Unit := fun s =>
  if s.status.authenticated then dispatchTransactionState cmd args s
  else dispatchAuthorizationState cmd args s

/-! ## Line parsing and the per-line dispatch (`ClientHandler`) -/

/-- ASCII whitespace as recognised by `str.strip()` / `str.split()`. -/
def isPySpace (c : Char) : Bool :=
  c == ' ' || c == '\t' || c == '\n' || c == '\r' || c.toNat == 11 || c.toNat == 12

/-- `line.strip()`. -/
def pyStrip (cs : List Char) : List Char :=
  ((cs.dropWhile isPySpace).reverse.dropWhile isPySpace).reverse

/-- Worker for `str.split()`: split on whitespace runs, discarding empty
pieces. -/
def splitWsAux : List Char → List Char → List (List Char)
  | [], acc => if acc.isEmpty then [] else [acc.reverse]
  | c :: rest, acc =>
    if isPySpace c then
      if acc.isEmpty then splitWsAux rest []
      else acc.reverse :: splitWsAux rest []
    else splitWsAux rest (c :: acc)

/-- `line.split()` with no separator argument. -/
def pySplitWs (cs : List Char) : List (List Char) := splitWsAux cs []

/-- `str.upper()` (the commands are ASCII; per-character uppercasing). -/
def pyUpper (cs : List Char) : List Char := cs.map Char.toUpper

/-- `ClientHandler._parse_command`: strip, reject an empty line, split on
whitespace, uppercase the verb.  (The per-token `.strip()` of the source is
a no-op: `str.split()` already discards all whitespace.) -/
def parseCommand (line : List Char) : CmdOut (String × List String) :=
  let stripped := pyStrip line
  if stripped.isEmpty then .raised (Response.err "Empty command" none)
  else
    match pySplitWs stripped with
    | [] => .raised (Response.err "Empty command" none)
    | t :: rest => .ret (String.mk (pyUpper t), rest.map String.mk)

/-- Outcome of `ClientHandler._parse_line_and_call_command_handler`:
either a response is sent, or the `POP3SFRuntimeError` branch (no
response raised) is reached. -/
inductive LineResult where
  | send (r : Response)
  | internalError

/-- `ClientHandler._parse_line_and_call_command_handler`. -/
def parseLineAndCallCommandHandler (line : String) (s : Session) :
    Session × LineResult :=
  match parseCommand line.toList with
  | .raised r => (s, .send r)
  | .ret (cmd, args) =>
    match handleCommand cmd args s with
    | (s1, .raised r) => (s1, .send r)
    | (s1, .ret _) => (s1, .internalError)

/-- State after a sequence of dispatched commands. -/
def runCommands : List (String × List String) → Session → Session
  | [], s => s
  | (c, a) :: rest, s => runCommands rest (handleCommand c a s).1

/-- State and responses after a sequence of dispatched commands. -/
def runCommandsR : List (String × List String) → Session → Session × List Response
  | [], s => (s, [])
  | (c, a) :: rest, s =>
    match handleCommand c a s with
    | (s1, .raised r) =>
      let res := runCommandsR rest s1
      (res.1, r :: res.2)
    | (s1, .ret _) => runCommandsR rest s1

/-! ## Every command path raises exactly one response -/

/-- A handler step that ends in a raised response from every start state. -/
def raisesAlways {α : Type} (m : M α) : Prop :=
  ∀ s, ∃ s1 r, m s = (s1, CmdOut.raised r)

theorem raises_mthrow {α : Type} (r : Response) : raisesAlways (mthrow r : M α) :=
  fun s => ⟨s, r, rfl⟩

theorem raises_mbind {α β : Type} (x : M α) (f : α → M β)
    (hf : ∀ a, raisesAlways (f a)) : raisesAlways (mbind x f) := by
  intro s
  rcases hx : x s with ⟨s1, out⟩
  cases out with
  | raised r => exact ⟨s1, r, by unfold mbind; rw [hx]⟩
  | ret a =>
    obtain ⟨s2, r, hr⟩ := hf a s1
    exact ⟨s2, r, by unfold mbind; rw [hx]; exact hr⟩

theorem raises_invalidCommandM : raisesAlways invalidCommandM := by
  intro s
  unfold invalidCommandM
  split
  · dsimp only
    split
    · exact ⟨_, _, rfl⟩
    · exact ⟨_, _, rfl⟩
  · exact ⟨_, _, rfl⟩

theorem raises_commandCapa (args : List String) : raisesAlways (commandCapa args) := by
  unfold commandCapa
  apply raises_mbind; intro _
  apply raises_mbind; intro _
  exact raises_mthrow _

theorem raises_commandQuitAuth (args : List String) :
    raisesAlways (commandQuitAuth args) := by
  unfold commandQuitAuth
  apply raises_mbind; intro _
  exact raises_mthrow _

theorem raises_commandQuitTrans (args : List String) :
    raisesAlways (commandQuitTrans args) := by
  unfold commandQuitTrans
  apply raises_mbind; intro _
  apply raises_mbind; intro _
  exact raises_mthrow _

theorem raises_commandXpro (args : List String) : raisesAlways (commandXpro args) := by
  unfold commandXpro
  apply raises_mbind; intro _
  apply raises_mbind; intro roAllowed
  split
  · exact raises_mthrow _
  · apply raises_mbind; intro _
    exact raises_mthrow _

theorem raises_commandUtf8 (args : List String) : raisesAlways (commandUtf8 args) := by
  unfold commandUtf8
  apply raises_mbind; intro _
  apply raises_mbind; intro _
  exact raises_mthrow _

theorem raises_commandLang (args : List String) : raisesAlways (commandLang args) := by
  unfold commandLang
  apply raises_mbind; intro _
  split
  · exact raises_mthrow _
  · split
    · apply raises_mbind; intro _
      exact raises_mthrow _
    · exact raises_mthrow _

theorem raises_commandNoop (args : List String) : raisesAlways (commandNoop args) := by
  unfold commandNoop
  apply raises_mbind; intro _
  exact raises_mthrow _

theorem raises_commandUser (args : List String) : raisesAlways (commandUser args) := by
  unfold commandUser
  apply raises_mbind; intro _
  apply raises_mbind; intro _
  exact raises_mthrow _

theorem raises_commandPass (args : List String) : raisesAlways (commandPass args) := by
  unfold commandPass
  apply raises_mbind; intro uOpt
  cases uOpt with
  | none => exact raises_mthrow _
  | some username =>
    dsimp only
    split
    · exact raises_mthrow _
    · apply raises_mbind; intro success
      split
      · exact raises_mthrow _
      · apply raises_mbind; intro _
        apply raises_mbind; intro _
        exact raises_mthrow _

theorem raises_commandStat (args : List String) : raisesAlways (commandStat args) := by
  unfold commandStat
  apply raises_mbind; intro _
  apply raises_mbind; intro _
  apply raises_mbind; intro _
  exact raises_mthrow _

theorem raises_commandList (args : List String) : raisesAlways (commandList args) := by
  unfold commandList
  apply raises_mbind; intro _
  split
  · apply raises_mbind; intro _
    exact raises_mthrow _
  · apply raises_mbind; intro _
    apply raises_mbind; intro _
    exact raises_mthrow _

theorem raises_commandUidl (args : List String) : raisesAlways (commandUidl args) := by
  unfold commandUidl
  apply raises_mbind; intro _
  split
  · apply raises_mbind; intro _
    exact raises_mthrow _
  · apply raises_mbind; intro _
    apply raises_mbind; intro _
    exact raises_mthrow _

theorem raises_commandRetr (args : List String) : raisesAlways (commandRetr args) := by
  unfold commandRetr
  apply raises_mbind; intro _
  apply raises_mbind; intro _
  apply raises_mbind; intro _
  exact raises_mthrow _

theorem raises_commandTop (args : List String) : raisesAlways (commandTop args) := by
  unfold commandTop
  apply raises_mbind; intro _
  apply raises_mbind; intro _
  apply raises_mbind; intro _
  apply raises_mbind; intro _
  exact raises_mthrow _

theorem raises_commandDele (args : List String) : raisesAlways (commandDele args) := by
  unfold commandDele
  apply raises_mbind; intro _
  apply raises_mbind; intro _
  apply raises_mbind; intro _
  exact raises_mthrow _

theorem raises_commandRset (args : List String) : raisesAlways (commandRset args) := by
  unfold commandRset
  apply raises_mbind; intro _
  apply raises_mbind; intro _
  exact raises_mthrow _

theorem raises_dispatchAuthorizationState (cmd : String) (args : List String) :
    raisesAlways (dispatchAuthorizationState cmd args) := by
  unfold dispatchAuthorizationState
  repeat' split
  · exact raises_commandCapa args
  · exact raises_commandQuitAuth args
  · exact raises_commandXpro args
  · exact raises_commandUtf8 args
  · exact raises_commandLang args
  · exact raises_commandUser args
  · exact raises_commandPass args
  · exact raises_invalidCommandM

theorem raises_dispatchTransactionState (cmd : String) (args : List String) :
    raisesAlways (dispatchTransactionState cmd args) := by
  unfold dispatchTransactionState
  repeat' split
  · exact raises_commandCapa args
  · exact raises_commandLang args
  · exact raises_commandNoop args
  · exact raises_commandQuitTrans args
  · exact raises_commandStat args
  · exact raises_commandList args
  · exact raises_commandUidl args
  · exact raises_commandRetr args
  · exact raises_commandTop args
  · exact raises_commandDele args
  · exact raises_commandRset args
  · exact raises_invalidCommandM

theorem raises_handleCommand (cmd : String) (args : List String) :
    raisesAlways (handleCommand cmd args) := by
  intro s
  unfold handleCommand
  rcases Bool.eq_false_or_eq_true s.status.authenticated with ha | ha
  · rw [if_pos ha]
    exact raises_dispatchTransactionState cmd args s
  · rw [if_neg (by rw [ha]; exact Bool.false_ne_true)]
    exact raises_dispatchAuthorizationState cmd args s

/-! ## Read-only sessions never reach the mutating adapter methods -/

/-- The three deletion-mutating adapter methods. -/
def mutatingEvent : Event → Bool
  | .markMessageAsDeleted _ => true
  | .unmarkMessagesMarkedAsDeleted => true
  | .commitDeletions => true
  | _ => false

/-- In a read-only session the step keeps the session read-only and appends
only non-mutating events. -/
def roSafe {α : Type} (m : M α) : Prop :=
  ∀ s, s.status.readOnlyMailboxAccess = true →
    (m s).1.status.readOnlyMailboxAccess = true ∧
    ∃ t, (m s).1.events = s.events ++ t ∧ ∀ e ∈ t, mutatingEvent e = false

theorem roSafe_mthrow {α : Type} (r : Response) : roSafe (mthrow r : M α) :=
  fun _ hro => ⟨hro, [], by simp [mthrow], by simp⟩

theorem roSafe_mpure {α : Type} (a : α) : roSafe (mpure a : M α) :=
  fun _ hro => ⟨hro, [], by simp [mpure], by simp⟩

theorem roSafe_read {α : Type} (g : Session → α) :
    roSafe (fun s => (s, CmdOut.ret (g s))) :=
  fun _ hro => ⟨hro, [], by simp, by simp⟩

theorem roSafe_mbind {α β : Type} (x : M α) (f : α → M β)
    (hx : roSafe x) (hf : ∀ a, roSafe (f a)) : roSafe (mbind x f) := by
  intro s hro
  have h1 := hx s hro
  rcases hxs : x s with ⟨s1, out⟩
  rw [hxs] at h1
  obtain ⟨hro1, t1, he1, hm1⟩ := h1
  cases out with
  | raised r =>
    refine ⟨?_, t1, ?_, hm1⟩ <;> unfold mbind <;> rw [hxs]
    · exact hro1
    · exact he1
  | ret a =>
    have h2 := hf a s1 hro1
    obtain ⟨hro2, t2, he2, hm2⟩ := h2
    refine ⟨?_, t1 ++ t2, ?_, ?_⟩
    · unfold mbind; rw [hxs]; exact hro2
    · unfold mbind; rw [hxs, he2, he1, List.append_assoc]
    · intro e he
      rcases List.mem_append.mp he with h | h
      · exact hm1 e h
      · exact hm2 e h

theorem roSafe_logE_step (e : Event) (hm : mutatingEvent e = false)
    (g : Session → α) : roSafe (fun s => (logE e s, CmdOut.ret (g s))) := by
  intro s hro
  exact ⟨hro, [e], by simp [logE], by simpa⟩

theorem roSafe_readOnlyModeAllowedM : roSafe readOnlyModeAllowedM := by
  unfold readOnlyModeAllowedM
  exact roSafe_logE_step Event.readOnlyModeAllowed rfl
    (fun s => s.adapter.readOnlyModeAllowed)

theorem roSafe_performInvalidPasswordPunishments :
    roSafe performInvalidPasswordPunishments := by
  intro s hro
  unfold performInvalidPasswordPunishments
  dsimp only
  split
  · split
    · exact ⟨hro, [.sleep s.config.failedLoginDelay], by simp [logE], by simp [mutatingEvent]⟩
    · exact ⟨hro, [.sleep s.config.failedLoginDelay], by simp [logE], by simp [mutatingEvent]⟩
  · exact ⟨hro, [.sleep s.config.failedLoginDelay], by simp [logE], by simp [mutatingEvent]⟩

theorem roSafe_verifyLoginCredentialsM (u p : String) :
    roSafe (verifyLoginCredentialsM u p) := by
  intro s hro
  unfold verifyLoginCredentialsM
  dsimp only
  split
  · exact ⟨hro, [.verifyLoginCredentials u p], by simp [logE], by simp [mutatingEvent]⟩
  · have hp := roSafe_performInvalidPasswordPunishments (logE (.verifyLoginCredentials u p) s)
      (by simpa [logE] using hro)
    rcases hps : performInvalidPasswordPunishments (logE (.verifyLoginCredentials u p) s)
      with ⟨s2, out⟩
    rw [hps] at hp
    obtain ⟨hro1, t1, he1, hm1⟩ := hp
    simp only [logE] at he1
    cases out with
    | raised r =>
      dsimp only
      refine ⟨by simpa using hro1, Event.verifyLoginCredentials u p :: t1, ?_, ?_⟩
      · simpa using he1
      · intro e he
        rcases List.mem_cons.mp he with h | h
        · rw [h]; rfl
        · exact hm1 e h
    | ret a =>
      dsimp only
      refine ⟨by simpa using hro1, Event.verifyLoginCredentials u p :: t1, ?_, ?_⟩
      · simpa using he1
      · intro e he
        rcases List.mem_cons.mp he with h | h
        · rw [h]; rfl
        · exact hm1 e h

theorem roSafe_getMessageCountM : roSafe getMessageCountM := by
  intro s hro
  unfold getMessageCountM
  dsimp only
  split
  · exact ⟨hro, [.getMessageCount], by simp [logE], by simp [mutatingEvent]⟩
  · exact ⟨hro, [.getMessageCount], by simp [logE], by simp [mutatingEvent]⟩

theorem roSafe_getMessageContentM (i : Int) : roSafe (getMessageContentM i) := by
  unfold getMessageContentM
  intro s hro
  exact ⟨hro, [.getMessageContent i s.status.encoding], by simp [logE],
    by simp [mutatingEvent]⟩

theorem roSafe_isMessageMarkedAsDeletedM (i : Int) :
    roSafe (isMessageMarkedAsDeletedM i) := by
  intro s hro
  unfold isMessageMarkedAsDeletedM
  rw [if_pos hro]
  exact ⟨hro, [], by simp, by simp⟩

theorem roSafe_markMessageAsDeletedM (i : Int) : roSafe (markMessageAsDeletedM i) := by
  intro s hro
  unfold markMessageAsDeletedM
  rw [if_pos hro]
  exact ⟨hro, [], by simp, by simp⟩

theorem roSafe_unmarkMessagesMarkedAsDeletedM :
    roSafe unmarkMessagesMarkedAsDeletedM := by
  intro s hro
  unfold unmarkMessagesMarkedAsDeletedM
  rw [if_pos hro]
  exact ⟨hro, [], by simp, by simp⟩

theorem roSafe_commitDeletionsM : roSafe commitDeletionsM := by
  intro s hro
  unfold commitDeletionsM
  rw [if_pos hro]
  exact ⟨hro, [], by simp, by simp⟩

theorem roSafe_getMessageSizeM (i : Int) : roSafe (getMessageSizeM i) := by
  unfold getMessageSizeM
  apply roSafe_mbind _ _ (roSafe_getMessageContentM i)
  intro content
  intro s hro
  dsimp only
  split
  · exact ⟨hro, [], by simp, by simp⟩
  · exact ⟨hro, [], by simp, by simp⟩

theorem roSafe_getMessageUniqueIdM (i : Int) : roSafe (getMessageUniqueIdM i) := by
  intro s hro
  unfold getMessageUniqueIdM
  dsimp only
  split
  · exact ⟨hro, [.getMessageUniqueId i], by simp [logE], by simp [mutatingEvent]⟩
  · exact ⟨hro, [.getMessageUniqueId i], by simp [logE], by simp [mutatingEvent]⟩

theorem roSafe_countUndeletedAux (l : List Int) (acc : Nat) :
    roSafe (countUndeletedAux l acc) := by
  induction l generalizing acc with
  | nil => exact roSafe_mpure acc
  | cons i rest ih =>
    unfold countUndeletedAux
    exact roSafe_mbind _ _ (roSafe_isMessageMarkedAsDeletedM i) (fun b => ih _)

theorem roSafe_getUndeletedMessageCountM : roSafe getUndeletedMessageCountM := by
  unfold getUndeletedMessageCountM
  exact roSafe_mbind _ _ roSafe_getMessageCountM
    (fun count => roSafe_countUndeletedAux _ 0)

theorem roSafe_allUndeletedSizesAux (l : List Int) (acc : List (Int × Nat)) :
    roSafe (allUndeletedSizesAux l acc) := by
  induction l generalizing acc with
  | nil => exact roSafe_mpure acc
  | cons i rest ih =>
    unfold allUndeletedSizesAux
    apply roSafe_mbind _ _ (roSafe_isMessageMarkedAsDeletedM i)
    intro b
    by_cases hb : b = true
    · rw [hb, if_pos rfl]; exact ih _
    · rw [Bool.eq_false_iff.mpr hb, if_neg Bool.false_ne_true]
      exact roSafe_mbind _ _ (roSafe_getMessageSizeM i) (fun sz => ih _)

theorem roSafe_getAllUndeletedSizesM : roSafe getAllUndeletedSizesM := by
  unfold getAllUndeletedSizesM
  exact roSafe_mbind _ _ roSafe_getMessageCountM
    (fun count => roSafe_allUndeletedSizesAux _ [])

theorem roSafe_allUndeletedUidsAux (l : List Int) (acc : List (Int × String)) :
    roSafe (allUndeletedUidsAux l acc) := by
  induction l generalizing acc with
  | nil => exact roSafe_mpure acc
  | cons i rest ih =>
    unfold allUndeletedUidsAux
    apply roSafe_mbind _ _ (roSafe_isMessageMarkedAsDeletedM i)
    intro b
    by_cases hb : b = true
    · rw [hb, if_pos rfl]; exact ih _
    · rw [Bool.eq_false_iff.mpr hb, if_neg Bool.false_ne_true]
      exact roSafe_mbind _ _ (roSafe_getMessageUniqueIdM i) (fun uid => ih _)

theorem roSafe_getAllUndeletedUniqueIdsM : roSafe getAllUndeletedUniqueIdsM := by
  unfold getAllUndeletedUniqueIdsM
  apply roSafe_mbind _ _ roSafe_getMessageCountM
  intro count
  apply roSafe_mbind _ _ (roSafe_allUndeletedUidsAux _ [])
  intro lst
  intro s hro
  dsimp only
  split
  · exact ⟨hro, [], by simp, by simp⟩
  · exact ⟨hro, [], by simp, by simp⟩

theorem roSafe_getHeadersAndFirstNLinesM (i n : Int) :
    roSafe (getHeadersAndFirstNLinesM i n) := by
  unfold getHeadersAndFirstNLinesM
  exact roSafe_mbind _ _ (roSafe_getMessageContentM i)
    (fun content => roSafe_mpure _)

theorem roSafe_authenticationSuccessfulM (username : String) :
    roSafe (authenticationSuccessfulM username) := by
  intro s hro
  unfold authenticationSuccessfulM
  dsimp only
  split
  · refine ⟨by simpa [logE] using hro, [.loginSuccessful username s.status.readOnlyMailboxAccess],
      by simp [logE], by simp [mutatingEvent]⟩
  · exact ⟨hro, [], by simp, by simp⟩

theorem roSafe_checkArgumentCount (args : List String) (allowed : List Nat) :
    roSafe (checkArgumentCount args allowed) := by
  unfold checkArgumentCount
  split
  · exact roSafe_mpure ()
  · exact roSafe_mthrow _

theorem roSafe_parseMessageNumberToIndexM (msgNum : String) :
    roSafe (parseMessageNumberToIndexM msgNum) := by
  unfold parseMessageNumberToIndexM
  split
  · exact roSafe_mthrow _
  · dsimp only
    split
    · exact roSafe_mthrow _
    · apply roSafe_mbind _ _ roSafe_getMessageCountM
      intro count
      split
      · exact roSafe_mthrow _
      · apply roSafe_mbind _ _ (roSafe_isMessageMarkedAsDeletedM _)
        intro b
        split
        · exact roSafe_mthrow _
        · exact roSafe_mpure _

theorem roSafe_parseNumberOfLinesM (nStr : String) :
    roSafe (parseNumberOfLinesM nStr) := by
  unfold parseNumberOfLinesM
  split
  · exact roSafe_mthrow _
  · split
    · exact roSafe_mthrow _
    · exact roSafe_mpure _

theorem roSafe_invalidCommandM : roSafe invalidCommandM := by
  intro s hro
  unfold invalidCommandM
  dsimp only
  split
  · split
    · exact ⟨hro, [], by simp, by simp⟩
    · exact ⟨hro, [], by simp, by simp⟩
  · exact ⟨hro, [], by simp, by simp⟩

theorem roSafe_statusStep (f : ClientStatus → ClientStatus)
    (hf : ∀ st, st.readOnlyMailboxAccess = true → (f st).readOnlyMailboxAccess = true) :
    roSafe (fun s => ({s with status := f s.status}, CmdOut.ret ())) := by
  intro s hro
  exact ⟨hf s.status hro, [], by simp, by simp⟩

theorem roSafe_commandCapa (args : List String) : roSafe (commandCapa args) := by
  unfold commandCapa
  apply roSafe_mbind _ _ (roSafe_checkArgumentCount args [0])
  intro _
  apply roSafe_mbind _ _ roSafe_readOnlyModeAllowedM
  intro _
  exact roSafe_mthrow _

theorem roSafe_commandQuitAuth (args : List String) : roSafe (commandQuitAuth args) := by
  unfold commandQuitAuth
  exact roSafe_mbind _ _ (roSafe_checkArgumentCount args [0]) (fun _ => roSafe_mthrow _)

theorem roSafe_commandQuitTrans (args : List String) : roSafe (commandQuitTrans args) := by
  unfold commandQuitTrans
  apply roSafe_mbind _ _ (roSafe_checkArgumentCount args [0])
  intro _
  exact roSafe_mbind _ _ roSafe_commitDeletionsM (fun _ => roSafe_mthrow _)

theorem roSafe_commandXpro (args : List String) : roSafe (commandXpro args) := by
  unfold commandXpro
  apply roSafe_mbind _ _ (roSafe_checkArgumentCount args [0])
  intro _
  apply roSafe_mbind _ _ roSafe_readOnlyModeAllowedM
  intro roAllowed
  split
  · exact roSafe_mthrow _
  · apply roSafe_mbind _ _ (roSafe_statusStep
      (fun st => {st with readOnlyMailboxAccess := true}) (fun st _ => rfl))
    intro _
    exact roSafe_mthrow _

theorem roSafe_commandUtf8 (args : List String) : roSafe (commandUtf8 args) := by
  unfold commandUtf8
  apply roSafe_mbind _ _ (roSafe_checkArgumentCount args [0])
  intro _
  apply roSafe_mbind _ _ (roSafe_statusStep
    (fun st => {st with encoding := Enc.utf8}) (fun st h => h))
  intro _
  exact roSafe_mthrow _

theorem roSafe_commandLang (args : List String) : roSafe (commandLang args) := by
  unfold commandLang
  apply roSafe_mbind _ _ (roSafe_checkArgumentCount args [0, 1])
  intro _
  split
  · exact roSafe_mthrow _
  · split
    · apply roSafe_mbind _ _ (roSafe_statusStep
        (fun st => {st with customLanguage := some "en"}) (fun st h => h))
      intro _
      exact roSafe_mthrow _
    · exact roSafe_mthrow _

theorem roSafe_commandNoop (args : List String) : roSafe (commandNoop args) := by
  unfold commandNoop
  exact roSafe_mbind _ _ (roSafe_checkArgumentCount args [0]) (fun _ => roSafe_mthrow _)

theorem roSafe_commandUser (args : List String) : roSafe (commandUser args) := by
  unfold commandUser
  apply roSafe_mbind _ _ (roSafe_checkArgumentCount args [1])
  intro _
  apply roSafe_mbind _ _ (roSafe_statusStep
    (fun st => {st with authorizationStateUsername := some (args.headD "")}) (fun st h => h))
  intro _
  exact roSafe_mthrow _

theorem roSafe_commandPass (args : List String) : roSafe (commandPass args) := by
  unfold commandPass
  apply roSafe_mbind _ _ (roSafe_read (fun s => s.status.authorizationStateUsername))
  intro uOpt
  cases uOpt with
  | none => exact roSafe_mthrow _
  | some username =>
    dsimp only
    split
    · exact roSafe_mthrow _
    · apply roSafe_mbind _ _ (roSafe_verifyLoginCredentialsM username _)
      intro success
      split
      · exact roSafe_mthrow _
      · apply roSafe_mbind _ _ (roSafe_authenticationSuccessfulM username)
        intro _
        apply roSafe_mbind _ _ (roSafe_read (fun s => s.status.readOnlyMailboxAccess))
        intro _
        exact roSafe_mthrow _

theorem roSafe_commandStat (args : List String) : roSafe (commandStat args) := by
  unfold commandStat
  apply roSafe_mbind _ _ (roSafe_checkArgumentCount args [0])
  intro _
  apply roSafe_mbind _ _ roSafe_getUndeletedMessageCountM
  intro _
  apply roSafe_mbind _ _ roSafe_getAllUndeletedSizesM
  intro _
  exact roSafe_mthrow _

theorem roSafe_commandList (args : List String) : roSafe (commandList args) := by
  unfold commandList
  apply roSafe_mbind _ _ (roSafe_checkArgumentCount args [0, 1])
  intro _
  split
  · apply roSafe_mbind _ _ roSafe_getAllUndeletedSizesM
    intro _
    exact roSafe_mthrow _
  · apply roSafe_mbind _ _ (roSafe_parseMessageNumberToIndexM _)
    intro index
    apply roSafe_mbind _ _ (roSafe_getMessageSizeM index)
    intro _
    exact roSafe_mthrow _

theorem roSafe_commandUidl (args : List String) : roSafe (commandUidl args) := by
  unfold commandUidl
  apply roSafe_mbind _ _ (roSafe_checkArgumentCount args [0, 1])
  intro _
  split
  · apply roSafe_mbind _ _ roSafe_getAllUndeletedUniqueIdsM
    intro _
    exact roSafe_mthrow _
  · apply roSafe_mbind _ _ (roSafe_parseMessageNumberToIndexM _)
    intro index
    apply roSafe_mbind _ _ (roSafe_getMessageUniqueIdM index)
    intro _
    exact roSafe_mthrow _

theorem roSafe_commandRetr (args : List String) : roSafe (commandRetr args) := by
  unfold commandRetr
  apply roSafe_mbind _ _ (roSafe_checkArgumentCount args [1])
  intro _
  apply roSafe_mbind _ _ (roSafe_parseMessageNumberToIndexM _)
  intro index
  apply roSafe_mbind _ _ (roSafe_getMessageContentM index)
  intro _
  exact roSafe_mthrow _

theorem roSafe_commandTop (args : List String) : roSafe (commandTop args) := by
  unfold commandTop
  apply roSafe_mbind _ _ (roSafe_checkArgumentCount args [2])
  intro _
  apply roSafe_mbind _ _ (roSafe_parseMessageNumberToIndexM _)
  intro index
  apply roSafe_mbind _ _ (roSafe_parseNumberOfLinesM _)
  intro n
  apply roSafe_mbind _ _ (roSafe_getHeadersAndFirstNLinesM index n)
  intro _
  exact roSafe_mthrow _

theorem roSafe_commandDele (args : List String) : roSafe (commandDele args) := by
  unfold commandDele
  apply roSafe_mbind _ _ (roSafe_checkArgumentCount args [1])
  intro _
  apply roSafe_mbind _ _ (roSafe_parseMessageNumberToIndexM _)
  intro index
  apply roSafe_mbind _ _ (roSafe_markMessageAsDeletedM index)
  intro _
  exact roSafe_mthrow _

theorem roSafe_commandRset (args : List String) : roSafe (commandRset args) := by
  unfold commandRset
  apply roSafe_mbind _ _ (roSafe_checkArgumentCount args [0])
  intro _
  apply roSafe_mbind _ _ roSafe_unmarkMessagesMarkedAsDeletedM
  intro _
  exact roSafe_mthrow _

theorem roSafe_dispatchAuthorizationState (cmd : String) (args : List String) :
    roSafe (dispatchAuthorizationState cmd args) := by
  unfold dispatchAuthorizationState
  repeat' split
  · exact roSafe_commandCapa args
  · exact roSafe_commandQuitAuth args
  · exact roSafe_commandXpro args
  · exact roSafe_commandUtf8 args
  · exact roSafe_commandLang args
  · exact roSafe_commandUser args
  · exact roSafe_commandPass args
  · exact roSafe_invalidCommandM

theorem roSafe_dispatchTransactionState (cmd : String) (args : List String) :
    roSafe (dispatchTransactionState cmd args) := by
  unfold dispatchTransactionState
  repeat' split
  · exact roSafe_commandCapa args
  · exact roSafe_commandLang args
  · exact roSafe_commandNoop args
  · exact roSafe_commandQuitTrans args
  · exact roSafe_commandStat args
  · exact roSafe_commandList args
  · exact roSafe_commandUidl args
  · exact roSafe_commandRetr args
  · exact roSafe_commandTop args
  · exact roSafe_commandDele args
  · exact roSafe_commandRset args
  · exact roSafe_invalidCommandM

theorem roSafe_handleCommand (cmd : String) (args : List String) :
    roSafe (handleCommand cmd args) := by
  intro s hro
  unfold handleCommand
  rcases Bool.eq_false_or_eq_true s.status.authenticated with ha | ha
  · rw [if_pos ha]
    exact roSafe_dispatchTransactionState cmd args s hro
  · rw [if_neg (by rw [ha]; exact Bool.false_ne_true)]
    exact roSafe_dispatchAuthorizationState cmd args s hro

/-- In a read-only session, an arbitrary sequence of dispatched commands
only ever appends non-mutating events to the log. -/
theorem roSafe_runCommands (cmds : List (String × List String)) (s : Session)
    (hro : s.status.readOnlyMailboxAccess = true) :
    (runCommands cmds s).status.readOnlyMailboxAccess = true ∧
    ∃ t, (runCommands cmds s).events = s.events ++ t ∧
      ∀ e ∈ t, mutatingEvent e = false := by
  induction cmds generalizing s with
  | nil => exact ⟨hro, [], by simp [runCommands], by simp⟩
  | cons ca rest ih =>
    rcases ca with ⟨c, a⟩
    have hstep := roSafe_handleCommand c a s hro
    obtain ⟨hro1, t1, he1, hm1⟩ := hstep
    have hrec := ih ((handleCommand c a s).1) hro1
    obtain ⟨hro2, t2, he2, hm2⟩ := hrec
    refine ⟨?_, t1 ++ t2, ?_, ?_⟩
    · simpa [runCommands] using hro2
    · show (runCommands rest (handleCommand c a s).1).events = _
      rw [he2, he1, List.append_assoc]
    · intro e he
      rcases List.mem_append.mp he with h | h
      · exact hm1 e h
      · exact hm2 e h

/-! ## Shared sample sessions for concrete runs -/

/-- A small concrete adapter used in concrete demonstrations. -/
def sampleAdapter : Adapter :=
  ⟨true, fun u p => u == "user" && p == "pw", 2,
   fun i _ => if i = 0 then "From: a\r\n\r\n.dot\nbody" else "H\r\n",
   fun i => if i = 0 then "uid0" else "uid1"⟩

/-- A concrete configuration (limits 5 invalid commands, 3 invalid
passwords, 500 ms delay). -/
def sampleConfig : Config := ⟨5, 3, 500⟩

/-- A concrete authenticated (transaction-state) session. -/
def authSession : Session :=
  ⟨7, sampleConfig, sampleAdapter,
   {ClientStatus.init with authenticated := true, username := some "user"},
   [], [⟨7, "user", false⟩], []⟩

/-- The same session in read-only mode. -/
def roAuthSession : Session :=
  {authSession with status := {authSession.status with readOnlyMailboxAccess := true}}

/-- A concrete authorization-state session with a staged username. -/
def authzSession : Session :=
  ⟨7, sampleConfig, sampleAdapter,
   {ClientStatus.init with authorizationStateUsername := some "user"},
   [], [], []⟩

/-! ## Claim C1 -/

/-- C1: starting from an empty exclusivity registry, any sequence of
`add_client` / `remove_client` calls keeps, for every username, the entry
set empty, all-read-only, or exactly one read-write entry; and under that
invariant `add_client` returns false (registry unchanged) exactly when
appending the new entry would break the invariant, returning true (entry
appended) otherwise. -/
theorem c1_exclusivity_invariant :
    (∀ ops : List RegOp, registryOk (applyRegOps ops [])) ∧
    (∀ (clients : List ExClient) (cid : Nat) (u : String) (ro : Bool),
      registryOk clients →
      ((addClient clients cid u ro).1 = false ↔
        ¬ registryOk (clients ++ [⟨cid, u, ro⟩])) ∧
      ((addClient clients cid u ro).1 = false →
        (addClient clients cid u ro).2 = clients) ∧
      ((addClient clients cid u ro).1 = true →
        (addClient clients cid u ro).2 = clients ++ [⟨cid, u, ro⟩])) := by
  constructor
  · intro ops
    exact applyRegOps_preserves ops [] registryOk_nil
  · intro clients cid u ro h
    exact ⟨addClient_refused_iff_break clients cid u ro h,
      (addClient_state clients cid u ro).1,
      (addClient_state clients cid u ro).2⟩

/-- Witness for C1 at a concrete registry state. -/
theorem c1_exclusivity_invariant_witness :
    registryOk ([] : List ExClient) ∧
    ((addClient [] 1 "bob" false).1 = false ↔
      ¬ registryOk ([] ++ [⟨1, "bob", false⟩])) := by
  refine ⟨registryOk_nil, ?_⟩
  exact (c1_exclusivity_invariant.2 [] 1 "bob" false registryOk_nil).1

/-! ## Claim C3 -/

/-- C3: for every verb, argument list and session state, `handle_command`
ends in exactly one raised response (adapter calls returning normally by
the model), and the `POP3SFRuntimeError` branch of
`_parse_line_and_call_command_handler` is unreachable. -/
theorem c3_every_command_raises :
    (∀ (cmd : String) (args : List String) (s : Session),
      ∃ s1 r, handleCommand cmd args s = (s1, CmdOut.raised r)) ∧
    (∀ (line : String) (s : Session),
      (parseLineAndCallCommandHandler line s).2 ≠ LineResult.internalError) := by
  constructor
  · exact fun cmd args s => raises_handleCommand cmd args s
  · intro line s
    unfold parseLineAndCallCommandHandler
    rcases hp : parseCommand line.toList with r | ⟨cmd, args⟩
    · simp
    · obtain ⟨s1, r, hr⟩ := raises_handleCommand cmd args s
      dsimp only
      rw [hr]
      simp

/-- Witness for C3 at a concrete verb and session. -/
theorem c3_every_command_raises_witness :
    ∃ s1 r, handleCommand "NOOP" [] authSession = (s1, CmdOut.raised r) :=
  c3_every_command_raises.1 "NOOP" [] authSession

/-! ## Claim C2 -/

theorem stuffLine_clean {l : List Char} (h : lineClean l) : lineClean (stuffLine l) := by
  unfold stuffLine
  split
  · exact ⟨by simp [h.1], by simp [h.2]⟩
  · exact h

theorem buildMessageStr_multiline (r : Response) (language : Option String)
    (body : String) (hm : r.multiline = some body) :
    buildMessageStr r language =
      (if r.forceCRLF
          || !(endsCRLF (composeFirstLine r language ++ composeNextLines body.toList)) then
        (composeFirstLine r language ++ composeNextLines body.toList) ++ ['\r', '\n']
      else
        composeFirstLine r language ++ composeNextLines body.toList) ++ ['.', '\r', '\n'] := by
  unfold buildMessageStr
  rw [hm]

theorem multiline_terminator (r : Response) (language : Option String)
    (body : String) (hm : r.multiline = some body) :
    ∃ pre, buildMessageStr r language = pre ++ ['\r', '\n', '.', '\r', '\n'] := by
  rw [buildMessageStr_multiline r language body hm]
  split
  · exact ⟨composeFirstLine r language ++ composeNextLines body.toList, by simp⟩
  · next hcond =>
    have hends : endsCRLF (composeFirstLine r language ++ composeNextLines body.toList)
        = true := by
      rcases Bool.eq_false_or_eq_true
        (endsCRLF (composeFirstLine r language ++ composeNextLines body.toList))
        with hb | hb
      · exact hb
      · exfalso
        exact hcond (by rw [hb]; simp)
    obtain ⟨t, ht⟩ := endsCRLF_true_elim _ hends
    rw [ht]
    exact ⟨t, by simp⟩

theorem composeNextLines_splitLines (body : List Char) :
    splitLines (composeNextLines body) = (splitLines body).map stuffLine := by
  unfold composeNextLines
  apply splitLines_joinCRLF
  · simp only [ne_eq, List.map_eq_nil_iff]
    exact splitLines_ne_nil body
  · intro l hl
    obtain ⟨l0, hl0, hmap⟩ := List.mem_map.mp hl
    rw [← hmap]
    exact stuffLine_clean (splitLines_clean body l0 hl0)

theorem composeNextLines_normalized (body : List Char) :
    crlfNormalizedB (composeNextLines body) = true := by
  unfold composeNextLines
  apply crlfNormalizedB_joinCRLF
  intro l hl
  obtain ⟨l0, hl0, hmap⟩ := List.mem_map.mp hl
  rw [← hmap]
  exact stuffLine_clean (splitLines_clean body l0 hl0)

/-- C2: for every response with a multiline body and every session state,
the rendered message ends with CRLF `.` CRLF (also at the byte level, for
both encodings); the wire lines of the multiline section are exactly the
source lines with every dot-initial line prefixed by an extra dot, and no
unstuffed dot-initial line remains; and the section contains only CRLF
line breaks (all `\r\n`, bare `\r` and bare `\n` of the body are
normalised). -/
theorem c2_multiline_framing :
    ∀ (succ : Bool) (code : Option RespCode) (msg : String) (hr : Bool)
      (body : String) (force close : Bool) (language : Option String) (e : Enc),
      (∃ pre, buildMessageStr ⟨succ, code, msg, hr, some body, force, close⟩ language
        = pre ++ ['\r', '\n', '.', '\r', '\n']) ∧
      (∃ bpre, utf8Encode
          (buildMessageStr ⟨succ, code, msg, hr, some body, force, close⟩ language)
        = bpre ++ [13, 10, 46, 13, 10]) ∧
      (∀ bs, encodeStr e
          (buildMessageStr ⟨succ, code, msg, hr, some body, force, close⟩ language)
          = some bs →
        ∃ bpre, bs = bpre ++ [13, 10, 46, 13, 10]) ∧
      splitLines (composeNextLines body.toList) = (splitLines body.toList).map stuffLine ∧
      (∀ l ∈ splitLines body.toList, l.head? = some '.' → stuffLine l = '.' :: l) ∧
      (∀ l ∈ splitLines body.toList, (stuffLine l).head? = some '.' →
        l.head? = some '.' ∧ stuffLine l = '.' :: l) ∧
      crlfNormalizedB (composeNextLines body.toList) = true := by
  intro succ code msg hr body force close language e
  obtain ⟨pre, hpre⟩ := multiline_terminator
    ⟨succ, code, msg, hr, some body, force, close⟩ language body rfl
  refine ⟨⟨pre, hpre⟩, ?_, ?_, composeNextLines_splitLines body.toList, ?_, ?_,
    composeNextLines_normalized body.toList⟩
  · refine ⟨utf8Encode pre, ?_⟩
    rw [hpre, utf8Encode_append]
    rfl
  · intro bs hbs
    rw [hpre] at hbs
    obtain ⟨ba, bb, hba, hbb, happ⟩ := encodeStr_append_some e _ _ bs hbs
    refine ⟨ba, ?_⟩
    rw [happ]
    cases e with
    | ascii =>
      have : encodeStr Enc.ascii ['\r', '\n', '.', '\r', '\n']
          = some [13, 10, 46, 13, 10] := by decide
      rw [this] at hbb
      simp at hbb
      rw [hbb]
    | utf8 =>
      have : encodeStr Enc.utf8 ['\r', '\n', '.', '\r', '\n']
          = some [13, 10, 46, 13, 10] := by decide
      rw [this] at hbb
      simp at hbb
      rw [hbb]
  · intro l _ hl
    unfold stuffLine
    rw [if_pos hl]
  · intro l _ hl
    by_cases hh : l.head? = some '.'
    · exact ⟨hh, by unfold stuffLine; rw [if_pos hh]⟩
    · exfalso
      apply hh
      unfold stuffLine at hl
      rw [if_neg hh] at hl
      exact hl

/-- Witness for C2 at a concrete response. -/
theorem c2_multiline_framing_witness :
    ∃ pre, buildMessageStr ⟨true, none, "m", true, some ".a\nb", false, false⟩ none
      = pre ++ ['\r', '\n', '.', '\r', '\n'] :=
  (c2_multiline_framing true none "m" true ".a\nb" false false none Enc.ascii).1

/-! ## Claim C4 -/

/-- C4: in a read-only session no command sequence ever invokes
`mark_message_as_deleted`, `unmark_messages_marked_as_deleted` or
`commit_deletions`; the wrapper refuses mark/unmark with
`-ERR [X-POP3SF-READ-ONLY]` before reaching the adapter, skips
`commit_deletions`, and short-circuits `is_message_marked_as_deleted` to
false without an adapter call; concretely, DELE and RSET in a read-only
transaction-state session are refused with that response and QUIT logs no
commit (while it does in a read-write session). -/
theorem c4_read_only_never_mutates :
    (∀ (s : Session) (cmds : List (String × List String)),
      s.status.readOnlyMailboxAccess = true →
      ∃ t, (runCommands cmds s).events = s.events ++ t ∧
        ∀ e ∈ t, mutatingEvent e = false) ∧
    (∀ (s : Session) (i : Int), s.status.readOnlyMailboxAccess = true →
      markMessageAsDeletedM i s = (s, CmdOut.raised Response.errReadOnlyAccess) ∧
      unmarkMessagesMarkedAsDeletedM s = (s, CmdOut.raised Response.errReadOnlyAccess) ∧
      commitDeletionsM s = (s, CmdOut.ret ()) ∧
      isMessageMarkedAsDeletedM i s = (s, CmdOut.ret false)) ∧
    ((handleCommand "DELE" ["1"] roAuthSession).2
        = CmdOut.raised Response.errReadOnlyAccess ∧
     (handleCommand "DELE" ["1"] roAuthSession).1.events = [Event.getMessageCount] ∧
     (handleCommand "RSET" [] roAuthSession).2
        = CmdOut.raised Response.errReadOnlyAccess ∧
     (handleCommand "RSET" [] roAuthSession).1.events = [] ∧
     (handleCommand "QUIT" [] roAuthSession).1.events = [] ∧
     (handleCommand "QUIT" [] authSession).1.events = [Event.commitDeletions]) := by
  refine ⟨?_, ?_, rfl, rfl, rfl, rfl, rfl, rfl⟩
  · intro s cmds hro
    exact (roSafe_runCommands cmds s hro).2
  · intro s i hro
    refine ⟨?_, ?_, ?_, ?_⟩
    · unfold markMessageAsDeletedM; rw [if_pos hro]
    · unfold unmarkMessagesMarkedAsDeletedM; rw [if_pos hro]
    · unfold commitDeletionsM; rw [if_pos hro]
    · unfold isMessageMarkedAsDeletedM; rw [if_pos hro]

/-- Witness for C4 on a concrete read-only session and command sequence. -/
theorem c4_read_only_never_mutates_witness :
    ∃ t, (runCommands [("DELE", ["1"]), ("QUIT", [])] roAuthSession).events
      = roAuthSession.events ++ t ∧ ∀ e ∈ t, mutatingEvent e = false :=
  c4_read_only_never_mutates.1 roAuthSession [("DELE", ["1"]), ("QUIT", [])] rfl

/-! ## Claim C5 -/

theorem splitWsAux_words_ne_nil (cs : List Char) :
    ∀ acc w, w ∈ splitWsAux cs acc → w ≠ [] := by
  induction cs with
  | nil =>
    intro acc w hw
    unfold splitWsAux at hw
    split at hw
    · simp at hw
    · next hne =>
      simp only [List.mem_singleton] at hw
      have hacc : acc ≠ [] := fun h => hne (by rw [h]; rfl)
      rw [hw]
      simpa using hacc
  | cons c rest ih =>
    intro acc w hw
    unfold splitWsAux at hw
    split at hw
    · split at hw
      · exact ih [] w hw
      · next hne =>
        rcases List.mem_cons.mp hw with h | h
        · have hacc : acc ≠ [] := fun h2 => hne (by rw [h2]; rfl)
          rw [h]
          simpa using hacc
        · exact ih [] w h
    · exact ih (c :: acc) w hw

theorem parseCommand_args_ne_empty (line : List Char) (cmd : String)
    (args : List String) (h : parseCommand line = CmdOut.ret (cmd, args)) :
    ∀ a ∈ args, a ≠ "" := by
  unfold parseCommand at h
  dsimp only at h
  split at h
  · exact absurd h (by simp)
  · rcases hsp : pySplitWs (pyStrip line) with _ | ⟨t, rest⟩ <;> rw [hsp] at h
    · exact absurd h (by simp)
    · have hargs : args = rest.map String.mk := by
        have := h
        simp only [CmdOut.ret.injEq, Prod.mk.injEq] at this
        exact this.2.symm
      intro a ha
      rw [hargs] at ha
      obtain ⟨w, hw, hmk⟩ := List.mem_map.mp ha
      have hwmem : w ∈ pySplitWs (pyStrip line) := by
        rw [hsp]; exact List.mem_cons_of_mem _ hw
      have hwne : w ≠ [] := splitWsAux_words_ne_nil (pyStrip line) [] w hwmem
      rw [← hmk]
      intro h
      apply hwne
      have hdata := congrArg String.data h
      simpa using hdata

theorem pyJoin_cons_ne_empty (a : String) (rest : List String) (ha : a ≠ "") :
    pyJoin " " (a :: rest) ≠ "" := by
  cases rest with
  | nil => simpa [pyJoin]
  | cons b bs =>
    intro h
    have hd := congrArg String.data h
    simp only [pyJoin, String.data_append] at hd
    simp at hd

/-- Event log growth of one step. -/
def eventsMono {α : Type} (m : M α) : Prop :=
  ∀ s, ∃ t, (m s).1.events = s.events ++ t

theorem eventsMono_mthrow {α : Type} (r : Response) : eventsMono (mthrow r : M α) :=
  fun _ => ⟨[], by simp [mthrow]⟩

theorem eventsMono_read {α : Type} (g : Session → α) :
    eventsMono (fun s => (s, CmdOut.ret (g s))) :=
  fun _ => ⟨[], by simp⟩

theorem eventsMono_mbind {α β : Type} (x : M α) (f : α → M β)
    (hx : eventsMono x) (hf : ∀ a, eventsMono (f a)) : eventsMono (mbind x f) := by
  intro s
  obtain ⟨t1, ht1⟩ := hx s
  rcases hxs : x s with ⟨s1, out⟩
  rw [hxs] at ht1
  cases out with
  | raised r =>
    refine ⟨t1, ?_⟩
    unfold mbind
    rw [hxs]
    exact ht1
  | ret a =>
    obtain ⟨t2, ht2⟩ := hf a s1
    refine ⟨t1 ++ t2, ?_⟩
    unfold mbind
    rw [hxs, ht2, ht1, List.append_assoc]

theorem eventsMono_authenticationSuccessfulM (username : String) :
    eventsMono (authenticationSuccessfulM username) := by
  intro s
  unfold authenticationSuccessfulM
  dsimp only
  split
  · exact ⟨[.loginSuccessful username s.status.readOnlyMailboxAccess], by simp [logE]⟩
  · exact ⟨[], by simp⟩

theorem eventsMono_punishments : eventsMono performInvalidPasswordPunishments := by
  intro s
  unfold performInvalidPasswordPunishments
  dsimp only
  split
  · split
    · exact ⟨[.sleep s.config.failedLoginDelay], by simp [logE]⟩
    · exact ⟨[.sleep s.config.failedLoginDelay], by simp [logE]⟩
  · exact ⟨[.sleep s.config.failedLoginDelay], by simp [logE]⟩

/-- The `verify_login_credentials` wrapper records exactly one verify event
first, whatever else happens. -/
theorem verifyLoginCredentialsM_events (u p : String) (s : Session) :
    ∃ t, (verifyLoginCredentialsM u p s).1.events
      = s.events ++ Event.verifyLoginCredentials u p :: t := by
  unfold verifyLoginCredentialsM
  dsimp only
  split
  · exact ⟨[], by simp [logE]⟩
  · rcases hps : performInvalidPasswordPunishments (logE (.verifyLoginCredentials u p) s)
      with ⟨s2, out⟩
    have hpm := eventsMono_punishments (logE (.verifyLoginCredentials u p) s)
    rw [hps] at hpm
    obtain ⟨t0, ht0⟩ := hpm
    simp only [logE] at ht0
    cases out with
    | raised r => exact ⟨t0, by simpa using ht0⟩
    | ret a => exact ⟨t0, by simpa using ht0⟩

/-- C5: the password handed to `verify_login_credentials` by PASS is the
whitespace-split tokens after the verb joined with single spaces, so two
PASS lines with equal token sequences (e.g. differing only in consecutive
spaces) verify the same password. -/
theorem c5_pass_joins_tokens :
    (∀ (line : List Char) (args : List String) (s : Session) (u : String),
      parseCommand line = CmdOut.ret ("PASS", args) → args ≠ [] →
      s.status.authenticated = false →
      s.status.authorizationStateUsername = some u →
      ∃ t, (handleCommand "PASS" args s).1.events
        = s.events ++ Event.verifyLoginCredentials u (pyJoin " " args) :: t) ∧
    (∀ (l1 l2 : List Char) (args1 args2 : List String),
      parseCommand l1 = CmdOut.ret ("PASS", args1) →
      parseCommand l2 = CmdOut.ret ("PASS", args2) → args1 = args2 →
      pyJoin " " args1 = pyJoin " " args2) ∧
    (parseCommand "PASS hello  world".toList = CmdOut.ret ("PASS", ["hello", "world"]) ∧
     parseCommand "PASS hello world".toList = CmdOut.ret ("PASS", ["hello", "world"]) ∧
     pyJoin " " ["hello", "world"] = "hello world") := by
  refine ⟨?_, ?_, rfl, rfl, rfl⟩
  · intro line args s u hparse hargs hauth hu
    have hd : handleCommand "PASS" args s = commandPass args s := by
      unfold handleCommand
      rw [if_neg (by rw [hauth]; exact Bool.false_ne_true)]
      rfl
    rw [hd]
    have hpw : pyJoin " " args ≠ "" := by
      rcases args with _ | ⟨a, rest⟩
      · exact absurd rfl hargs
      · exact pyJoin_cons_ne_empty a rest
          (parseCommand_args_ne_empty line "PASS" (a :: rest) hparse a
            (List.mem_cons_self _ _))
    unfold commandPass
    unfold mbind
    dsimp only
    rw [hu]
    dsimp only
    rw [if_neg hpw]
    rcases hv : verifyLoginCredentialsM u (pyJoin " " args) s with ⟨s1, out⟩
    obtain ⟨t0, ht0⟩ := verifyLoginCredentialsM_events u (pyJoin " " args) s
    rw [hv] at ht0
    cases out with
    | raised r => exact ⟨t0, ht0⟩
    | ret b =>
      dsimp only
      split
      · exact ⟨t0, by simpa [mthrow] using ht0⟩
      · dsimp only
        rcases ha : authenticationSuccessfulM u s1 with ⟨s2, out2⟩
        obtain ⟨t1, ht1⟩ := eventsMono_authenticationSuccessfulM u s1
        rw [ha] at ht1
        cases out2 with
        | raised r2 =>
          refine ⟨t0 ++ t1, ?_⟩
          dsimp only at ht1 ⊢
          rw [ht1, ht0]
          simp
        | ret a2 =>
          refine ⟨t0 ++ t1, ?_⟩
          dsimp only at ht1 ⊢
          simp only [mthrow]
          rw [ht1, ht0]
          simp
  · intro l1 l2 args1 args2 h1 h2 he
    rw [he]

/-- Witness for C5 at a concrete line and session. -/
theorem c5_pass_joins_tokens_witness :
    ∃ t, (handleCommand "PASS" ["pw"] authzSession).1.events
      = authzSession.events
        ++ Event.verifyLoginCredentials "user" (pyJoin " " ["pw"]) :: t :=
  c5_pass_joins_tokens.1 "PASS pw".toList ["pw"] authzSession "user" rfl
    (by simp) rfl rfl

/-! ## Claim C6 -/

/-- An adapter that rejects every credential pair. -/
def badPassAdapter : Adapter :=
  ⟨true, fun _ _ => false, 2, fun _ _ => "H\r\n", fun _ => "uid"⟩

/-- Authorization-state session with the invalid-password limit disabled
(`MAX_INVALID_PASSWORDS_PER_SESSION = -1`). -/
def noLimitPassSession : Session :=
  ⟨7, ⟨-1, -1, 500⟩, badPassAdapter,
   {ClientStatus.init with authorizationStateUsername := some "user"}, [], [], []⟩

/-- Authorization-state session with the invalid-password limit 3. -/
def limit3PassSession : Session :=
  ⟨7, ⟨-1, 3, 500⟩, badPassAdapter,
   {ClientStatus.init with authorizationStateUsername := some "user"}, [], [], []⟩

/-- C6 counterexample: with the configured maximum negative, a PASS on
which `verify_login_credentials` returns false (the verify and sleep
events show the claimed premise holds) leaves the invalid-password counter
at 0, not incremented as the claim states. -/
theorem c6_counterexample :
    (handleCommand "PASS" ["x"] noLimitPassSession).1.status.invalidPasswordCount = 0 ∧
    (handleCommand "PASS" ["x"] noLimitPassSession).1.events
      = [Event.verifyLoginCredentials "user" "x", Event.sleep 500] ∧
    (handleCommand "PASS" ["x"] noLimitPassSession).2
      = CmdOut.raised (Response.err "Incorrect username or password" (some .auth)) :=
  ⟨rfl, rfl, rfl⟩

/-- C6 amended: on every PASS whose credential check fails, the server
sleeps for the configured delay; when the configured maximum is ≥ 0 the
counter is incremented and the session closes with
`-ERR [AUTH] Too many incorrect passwords` exactly when the incremented
counter exceeds the maximum (staying open with `-ERR [AUTH]` otherwise);
when the maximum is negative the counter is untouched and the session
stays open with `-ERR [AUTH]`.  With maximum 3 the 4th consecutive bad
PASS closes the connection. -/
theorem c6_bad_password_punishments :
    (∀ (s : Session) (args : List String) (u : String),
      s.status.authenticated = false →
      s.status.authorizationStateUsername = some u →
      pyJoin " " args ≠ "" →
      s.adapter.verifyLoginCredentials u (pyJoin " " args) = false →
      (handleCommand "PASS" args s).1.events
        = s.events ++ [Event.verifyLoginCredentials u (pyJoin " " args),
            Event.sleep s.config.failedLoginDelay] ∧
      (s.config.maxInvalidPasswords ≥ 0 →
        (handleCommand "PASS" args s).1.status.invalidPasswordCount
          = s.status.invalidPasswordCount + 1 ∧
        ((s.status.invalidPasswordCount + 1 : Int) > s.config.maxInvalidPasswords →
          (handleCommand "PASS" args s).2 = CmdOut.raised
            ((Response.err "Too many incorrect passwords" (some .auth)).closeAfter)) ∧
        ((s.status.invalidPasswordCount + 1 : Int) ≤ s.config.maxInvalidPasswords →
          (handleCommand "PASS" args s).2 = CmdOut.raised
            (Response.err "Incorrect username or password" (some .auth)))) ∧
      (s.config.maxInvalidPasswords < 0 →
        (handleCommand "PASS" args s).1.status.invalidPasswordCount
          = s.status.invalidPasswordCount ∧
        (handleCommand "PASS" args s).2 = CmdOut.raised
          (Response.err "Incorrect username or password" (some .auth)))) ∧
    ((runCommandsR [("PASS", ["x"]), ("PASS", ["x"]), ("PASS", ["x"]),
        ("PASS", ["x"])] limit3PassSession).2
      = [Response.err "Incorrect username or password" (some .auth),
         Response.err "Incorrect username or password" (some .auth),
         Response.err "Incorrect username or password" (some .auth),
         (Response.err "Too many incorrect passwords" (some .auth)).closeAfter]) := by
  constructor
  · intro s args u hauth hu hpw hfalse
    have hd : handleCommand "PASS" args s = commandPass args s := by
      unfold handleCommand
      rw [if_neg (by rw [hauth]; exact Bool.false_ne_true)]
      rfl
    rw [hd]
    unfold commandPass
    unfold mbind
    dsimp only
    rw [hu]
    dsimp only
    rw [if_neg hpw]
    unfold verifyLoginCredentialsM
    dsimp only
    rw [hfalse]
    simp only [Bool.false_eq_true, if_false]
    unfold performInvalidPasswordPunishments
    dsimp only [logE]
    by_cases hmax : s.config.maxInvalidPasswords ≥ 0
    · rw [if_pos hmax]
      by_cases hcnt : (s.status.invalidPasswordCount + 1 : Int) > s.config.maxInvalidPasswords
      · rw [if_pos (by simpa using hcnt)]
        refine ⟨by simp [mthrow], fun _ => ⟨rfl, fun _ => rfl, fun hle => absurd hcnt (by omega)⟩,
          fun hneg => absurd hmax (by omega)⟩
      · rw [if_neg (by simpa using hcnt)]
        refine ⟨by simp [mthrow], fun _ => ⟨rfl, fun hgt => absurd hgt hcnt, fun _ => rfl⟩,
          fun hneg => absurd hmax (by omega)⟩
    · rw [if_neg hmax]
      refine ⟨by simp [mthrow], fun hge => absurd hge hmax, fun _ => ⟨rfl, rfl⟩⟩
  · rfl

/-- Witness for the amended C6 at a concrete session. -/
theorem c6_bad_password_punishments_witness :
    (handleCommand "PASS" ["x"] limit3PassSession).1.events
      = limit3PassSession.events ++ [Event.verifyLoginCredentials "user" (pyJoin " " ["x"]),
          Event.sleep limit3PassSession.config.failedLoginDelay] ∧
    (limit3PassSession.config.maxInvalidPasswords ≥ 0 →
      (handleCommand "PASS" ["x"] limit3PassSession).1.status.invalidPasswordCount
        = limit3PassSession.status.invalidPasswordCount + 1 ∧
      ((limit3PassSession.status.invalidPasswordCount + 1 : Int)
          > limit3PassSession.config.maxInvalidPasswords →
        (handleCommand "PASS" ["x"] limit3PassSession).2 = CmdOut.raised
          ((Response.err "Too many incorrect passwords" (some .auth)).closeAfter)) ∧
      ((limit3PassSession.status.invalidPasswordCount + 1 : Int)
          ≤ limit3PassSession.config.maxInvalidPasswords →
        (handleCommand "PASS" ["x"] limit3PassSession).2 = CmdOut.raised
          (Response.err "Incorrect username or password" (some .auth)))) ∧
    (limit3PassSession.config.maxInvalidPasswords < 0 →
      (handleCommand "PASS" ["x"] limit3PassSession).1.status.invalidPasswordCount
        = limit3PassSession.status.invalidPasswordCount ∧
      (handleCommand "PASS" ["x"] limit3PassSession).2 = CmdOut.raised
        (Response.err "Incorrect username or password" (some .auth))) :=
  c6_bad_password_punishments.1 limit3PassSession ["x"] "user" rfl rfl
    (by decide) rfl

/-! ## Claim C7 -/

theorem invalidCommandM_spec (s : Session) :
    (s.config.maxInvalidCommands ≥ 0 →
      (invalidCommandM s).1.status.invalidCommandCount
        = s.status.invalidCommandCount + 1 ∧
      (invalidCommandM s).1.events = s.events ∧
      ((s.status.invalidCommandCount + 1 : Int) > s.config.maxInvalidCommands →
        (invalidCommandM s).2 = CmdOut.raised
          ((Response.err "Too many invalid commands" none).closeAfter)) ∧
      ((s.status.invalidCommandCount + 1 : Int) ≤ s.config.maxInvalidCommands →
        (invalidCommandM s).2 = CmdOut.raised (Response.err "Invalid command" none))) ∧
    (s.config.maxInvalidCommands < 0 →
      (invalidCommandM s).1 = s ∧
      (invalidCommandM s).2 = CmdOut.raised (Response.err "Invalid command" none)) := by
  unfold invalidCommandM
  by_cases hmax : s.config.maxInvalidCommands ≥ 0
  · rw [if_pos hmax]
    by_cases hcnt : (s.status.invalidCommandCount + 1 : Int) > s.config.maxInvalidCommands
    · rw [if_pos (by simpa using hcnt)]
      exact ⟨fun _ => ⟨rfl, rfl, fun _ => rfl, fun hle => absurd hcnt (by omega)⟩,
        fun hneg => absurd hmax (by omega)⟩
    · rw [if_neg (by simpa using hcnt)]
      exact ⟨fun _ => ⟨rfl, rfl, fun hgt => absurd hgt hcnt, fun _ => rfl⟩,
        fun hneg => absurd hmax (by omega)⟩
  · rw [if_neg hmax]
    exact ⟨fun hge => absurd hge hmax, fun _ => ⟨rfl, rfl⟩⟩

theorem dispatchAuthorizationState_unknown (cmd : String) (args : List String)
    (h : cmd ∉ (["CAPA", "QUIT", "XPRO", "UTF8", "LANG", "USER", "PASS"] : List String)) :
    dispatchAuthorizationState cmd args = invalidCommandM := by
  simp only [List.mem_cons, List.not_mem_nil, or_false, not_or] at h
  obtain ⟨h1, h2, h3, h4, h5, h6, h7⟩ := h
  unfold dispatchAuthorizationState
  rw [if_neg h1, if_neg h2, if_neg h3, if_neg h4, if_neg h5, if_neg h6, if_neg h7]

theorem dispatchTransactionState_unknown (cmd : String) (args : List String)
    (h : cmd ∉ (["CAPA", "LANG", "NOOP", "QUIT", "STAT", "LIST", "UIDL", "RETR",
      "TOP", "DELE", "RSET"] : List String)) :
    dispatchTransactionState cmd args = invalidCommandM := by
  simp only [List.mem_cons, List.not_mem_nil, or_false, not_or] at h
  obtain ⟨h1, h2, h3, h4, h5, h6, h7, h8, h9, h10, h11⟩ := h
  unfold dispatchTransactionState
  rw [if_neg h1, if_neg h2, if_neg h3, if_neg h4, if_neg h5, if_neg h6, if_neg h7,
    if_neg h8, if_neg h9, if_neg h10, if_neg h11]

/-- C7 counterexample: a bad-arity protocol error (`NOOP` with one
argument) is reported as `-ERR Invalid argument count` but does not touch
the invalid-command counter although the configured maximum (5) is ≥ 0,
contradicting the claim that every protocol error is subject to the
counter. -/
theorem c7_counterexample :
    authSession.config.maxInvalidCommands = 5 ∧
    (handleCommand "NOOP" ["x"] authSession).2
      = CmdOut.raised (Response.err "Invalid argument count" none) ∧
    (handleCommand "NOOP" ["x"] authSession).1.status.invalidCommandCount = 0 :=
  ⟨rfl, rfl, rfl⟩

/-- C7 amended: every protocol error is reported as `-ERR` (a response
with `success = false`), but only the unknown-verb / wrong-state errors go
through `_invalid_command`: those increment the counter when the
configured maximum is ≥ 0 and close the session with
`-ERR Too many invalid commands` once the counter exceeds the maximum;
bad-arity and bad-argument errors raise their `-ERR` responses directly,
leaving the session state (the counter included) unchanged. -/
theorem c7_invalid_command_counter :
    (∀ (s : Session) (cmd : String) (args : List String),
      s.status.authenticated = false →
      cmd ∉ (["CAPA", "QUIT", "XPRO", "UTF8", "LANG", "USER", "PASS"] : List String) →
      handleCommand cmd args s = invalidCommandM s) ∧
    (∀ (s : Session) (cmd : String) (args : List String),
      s.status.authenticated = true →
      cmd ∉ (["CAPA", "LANG", "NOOP", "QUIT", "STAT", "LIST", "UIDL", "RETR",
        "TOP", "DELE", "RSET"] : List String) →
      handleCommand cmd args s = invalidCommandM s) ∧
    (∀ s : Session,
      (s.config.maxInvalidCommands ≥ 0 →
        (invalidCommandM s).1.status.invalidCommandCount
          = s.status.invalidCommandCount + 1 ∧
        ((s.status.invalidCommandCount + 1 : Int) > s.config.maxInvalidCommands →
          (invalidCommandM s).2 = CmdOut.raised
            ((Response.err "Too many invalid commands" none).closeAfter)) ∧
        ((s.status.invalidCommandCount + 1 : Int) ≤ s.config.maxInvalidCommands →
          (invalidCommandM s).2 = CmdOut.raised (Response.err "Invalid command" none))) ∧
      (s.config.maxInvalidCommands < 0 →
        (invalidCommandM s).1 = s ∧
        (invalidCommandM s).2 = CmdOut.raised (Response.err "Invalid command" none))) ∧
    (∀ (s : Session) (args : List String) (allowed : List Nat),
      allowed.contains args.length = false →
      checkArgumentCount args allowed s
        = (s, CmdOut.raised (Response.err "Invalid argument count" none))) ∧
    (∀ (s : Session) (numStr : String),
      parsePyInt numStr.toList = none →
      parseMessageNumberToIndexM numStr s
        = (s, CmdOut.raised (Response.err "Invalid message number (must be an integer)" none))) ∧
    (∀ (m : String) (c : Option RespCode), (Response.err m c).success = false) := by
  refine ⟨?_, ?_, ?_, ?_, ?_, fun _ _ => rfl⟩
  · intro s cmd args hauth hmem
    unfold handleCommand
    rw [if_neg (by rw [hauth]; exact Bool.false_ne_true)]
    rw [dispatchAuthorizationState_unknown cmd args hmem]
  · intro s cmd args hauth hmem
    unfold handleCommand
    rw [if_pos hauth]
    rw [dispatchTransactionState_unknown cmd args hmem]
  · intro s
    have h := invalidCommandM_spec s
    exact ⟨fun hge => ⟨(h.1 hge).1, (h.1 hge).2.2.1, (h.1 hge).2.2.2⟩, h.2⟩
  · intro s args allowed hc
    unfold checkArgumentCount
    rw [if_neg (by rw [hc]; exact Bool.false_ne_true)]
    rfl
  · intro s numStr hp
    unfold parseMessageNumberToIndexM
    rw [hp]
    rfl

/-- Witness for the amended C7 at a concrete unknown verb. -/
theorem c7_invalid_command_counter_witness :
    handleCommand "XYZZY" [] authSession = invalidCommandM authSession :=
  c7_invalid_command_counter.2.1 authSession "XYZZY" [] rfl (by decide)

/-! ## Claim C9 -/

/-- C9: `get_message_size(i)` returns the byte length, under the session
encoding, of the message content with every `\r\n`, bare `\r` and bare
`\n` normalised to `\r\n`, whenever encoding succeeds; when encoding
fails it raises `-ERR [UTF8]` without the close flag (the session stays
open), having touched the adapter only for the content. -/
theorem c9_get_message_size :
    ∀ (s : Session) (i : Int),
      (∀ bs, encodeStr s.status.encoding
          (normalizeNewlines (s.adapter.messageContent i s.status.encoding).toList)
          = some bs →
        getMessageSizeM i s
          = (logE (.getMessageContent i s.status.encoding) s, CmdOut.ret bs.length)) ∧
      (encodeStr s.status.encoding
          (normalizeNewlines (s.adapter.messageContent i s.status.encoding).toList)
          = none →
        ∃ r, getMessageSizeM i s
            = (logE (.getMessageContent i s.status.encoding) s, CmdOut.raised r) ∧
          r.success = false ∧ r.code = some RespCode.utf8 ∧ r.closeConn = false) := by
  intro s i
  constructor
  · intro bs hbs
    unfold getMessageSizeM mbind getMessageContentM
    dsimp only
    rw [show (logE (Event.getMessageContent i s.status.encoding) s).status.encoding
      = s.status.encoding from rfl]
    rw [hbs]
  · intro hnone
    refine ⟨Response.err
      "The message, whose size was obtained, contains a non-ASCII character (the UTF-8 mode is not enabled)"
      (some .utf8), ?_, rfl, rfl, rfl⟩
    unfold getMessageSizeM mbind getMessageContentM
    dsimp only
    rw [show (logE (Event.getMessageContent i s.status.encoding) s).status.encoding
      = s.status.encoding from rfl]
    rw [hnone]

/-- Witness for C9 at a concrete session and message. -/
theorem c9_get_message_size_witness :
    getMessageSizeM 1 authSession
      = (logE (.getMessageContent 1 authSession.status.encoding) authSession,
         CmdOut.ret ([72, 13, 10] : List Nat).length) :=
  (c9_get_message_size authSession 1).1 [72, 13, 10] (by decide)

/-! ## Claim C10 -/

theorem performInvalidPasswordPunishments_raise (s s2 : Session) (r : Response)
    (h : performInvalidPasswordPunishments s = (s2, CmdOut.raised r)) :
    r = (Response.err "Too many incorrect passwords" (some .auth)).closeAfter := by
  unfold performInvalidPasswordPunishments at h
  dsimp only at h
  split at h
  · split at h
    · injection h with h1 h2
      injection h2 with h3
      exact h3.symm
    · simp at h
  · simp at h

theorem verifyLoginCredentialsM_raise (u p : String) (s s1 : Session) (r : Response)
    (h : verifyLoginCredentialsM u p s = (s1, CmdOut.raised r)) :
    r = (Response.err "Too many incorrect passwords" (some .auth)).closeAfter := by
  unfold verifyLoginCredentialsM at h
  dsimp only at h
  split at h
  · simp at h
  · rcases hps : performInvalidPasswordPunishments (logE (.verifyLoginCredentials u p) s)
      with ⟨s2, out⟩
    rw [hps] at h
    cases out with
    | raised r2 =>
      injection h with h1 h2
      injection h2 with h3
      rw [← h3]
      exact performInvalidPasswordPunishments_raise _ _ _ hps
    | ret a => simp at h

theorem authenticationSuccessfulM_raise (u : String) (s s1 : Session) (r : Response)
    (h : authenticationSuccessfulM u s = (s1, CmdOut.raised r)) :
    r = Response.err "This user is logged in in another session" (some .inUse) := by
  unfold authenticationSuccessfulM at h
  dsimp only at h
  split at h
  · simp at h
  · injection h with h1 h2
    injection h2 with h3
    exact h3.symm

/-- C10: a bare PASS with a staged username is answered by
`-ERR [AUTH] Empty password` with the state untouched (so
`verify_login_credentials` is not called, the session stays open and
unauthenticated); no PASS invocation in authorization state can ever be
answered `Invalid argument count` (its arity check is absent), while every
other verb of both dispatch tables rejects a 4-argument call with exactly
that error. -/
theorem c10_bare_pass :
    (∀ (s : Session) (u : String),
      s.status.authenticated = false →
      s.status.authorizationStateUsername = some u →
      handleCommand "PASS" [] s
        = (s, CmdOut.raised (Response.err "Empty password" (some .auth)))) ∧
    ((Response.err "Empty password" (some .auth)).closeConn = false ∧
     (Response.err "Empty password" (some .auth)).success = false ∧
     (Response.err "Empty password" (some .auth)).code = some RespCode.auth) ∧
    (∀ (s : Session) (args : List String) (s1 : Session) (r : Response),
      s.status.authenticated = false →
      handleCommand "PASS" args s = (s1, CmdOut.raised r) →
      r.message ≠ "Invalid argument count") ∧
    ((handleCommand "CAPA" ["a", "a", "a", "a"] authzSession).2
        = CmdOut.raised (Response.err "Invalid argument count" none) ∧
     (handleCommand "QUIT" ["a", "a", "a", "a"] authzSession).2
        = CmdOut.raised (Response.err "Invalid argument count" none) ∧
     (handleCommand "XPRO" ["a", "a", "a", "a"] authzSession).2
        = CmdOut.raised (Response.err "Invalid argument count" none) ∧
     (handleCommand "UTF8" ["a", "a", "a", "a"] authzSession).2
        = CmdOut.raised (Response.err "Invalid argument count" none) ∧
     (handleCommand "LANG" ["a", "a", "a", "a"] authzSession).2
        = CmdOut.raised (Response.err "Invalid argument count" none) ∧
     (handleCommand "USER" ["a", "a", "a", "a"] authzSession).2
        = CmdOut.raised (Response.err "Invalid argument count" none) ∧
     (handleCommand "CAPA" ["a", "a", "a", "a"] authSession).2
        = CmdOut.raised (Response.err "Invalid argument count" none) ∧
     (handleCommand "LANG" ["a", "a", "a", "a"] authSession).2
        = CmdOut.raised (Response.err "Invalid argument count" none) ∧
     (handleCommand "NOOP" ["a", "a", "a", "a"] authSession).2
        = CmdOut.raised (Response.err "Invalid argument count" none) ∧
     (handleCommand "QUIT" ["a", "a", "a", "a"] authSession).2
        = CmdOut.raised (Response.err "Invalid argument count" none) ∧
     (handleCommand "STAT" ["a", "a", "a", "a"] authSession).2
        = CmdOut.raised (Response.err "Invalid argument count" none) ∧
     (handleCommand "LIST" ["a", "a", "a", "a"] authSession).2
        = CmdOut.raised (Response.err "Invalid argument count" none) ∧
     (handleCommand "UIDL" ["a", "a", "a", "a"] authSession).2
        = CmdOut.raised (Response.err "Invalid argument count" none) ∧
     (handleCommand "RETR" ["a", "a", "a", "a"] authSession).2
        = CmdOut.raised (Response.err "Invalid argument count" none) ∧
     (handleCommand "TOP" ["a", "a", "a", "a"] authSession).2
        = CmdOut.raised (Response.err "Invalid argument count" none) ∧
     (handleCommand "DELE" ["a", "a", "a", "a"] authSession).2
        = CmdOut.raised (Response.err "Invalid argument count" none) ∧
     (handleCommand "RSET" ["a", "a", "a", "a"] authSession).2
        = CmdOut.raised (Response.err "Invalid argument count" none)) := by
  refine ⟨?_, ⟨rfl, rfl, rfl⟩, ?_,
    rfl, rfl, rfl, rfl, rfl, rfl, rfl, rfl, rfl, rfl, rfl, rfl, rfl, rfl, rfl, rfl, rfl⟩
  · intro s u hauth hu
    have hd : handleCommand "PASS" [] s = commandPass [] s := by
      unfold handleCommand
      rw [if_neg (by rw [hauth]; exact Bool.false_ne_true)]
      rfl
    rw [hd]
    unfold commandPass mbind
    dsimp only
    rw [hu]
    dsimp only
    rw [if_pos (show pyJoin " " [] = "" from rfl)]
    rfl
  · intro s args s1 r hauth hrun
    have hd : handleCommand "PASS" args s = commandPass args s := by
      unfold handleCommand
      rw [if_neg (by rw [hauth]; exact Bool.false_ne_true)]
      rfl
    rw [hd] at hrun
    unfold commandPass mbind at hrun
    dsimp only at hrun
    rcases hopt : s.status.authorizationStateUsername with _ | u <;> rw [hopt] at hrun
    · simp only [mthrow] at hrun
      injection hrun with h1 h2
      injection h2 with h3
      rw [← h3]
      decide
    · dsimp only at hrun
      split at hrun
      · simp only [mthrow] at hrun
        injection hrun with h1 h2
        injection h2 with h3
        rw [← h3]
        decide
      · dsimp only at hrun
        rcases hv : verifyLoginCredentialsM u (pyJoin " " args) s with ⟨s2, out⟩
        rw [hv] at hrun
        cases out with
        | raised r2 =>
          injection hrun with h1 h2
          injection h2 with h3
          rw [← h3, verifyLoginCredentialsM_raise u _ s s2 r2 hv]
          decide
        | ret b =>
          dsimp only at hrun
          split at hrun
          · simp only [mthrow] at hrun
            injection hrun with h1 h2
            injection h2 with h3
            rw [← h3]
            decide
          · dsimp only at hrun
            rcases ha : authenticationSuccessfulM u s2 with ⟨s3, out2⟩
            rw [ha] at hrun
            cases out2 with
            | raised r3 =>
              injection hrun with h1 h2
              injection h2 with h3
              rw [← h3, authenticationSuccessfulM_raise u s2 s3 r3 ha]
              decide
            | ret a2 =>
              simp only [mthrow] at hrun
              injection hrun with h1 h2
              injection h2 with h3
              rw [← h3]
              by_cases hro : s3.status.readOnlyMailboxAccess = true
              · rw [if_pos hro]
                decide
              · rw [if_neg hro]
                decide

/-- Witness for C10 at a concrete session. -/
theorem c10_bare_pass_witness :
    handleCommand "PASS" [] authzSession
      = (authzSession, CmdOut.raised (Response.err "Empty password" (some .auth))) :=
  c10_bare_pass.1 authzSession "user" rfl rfl

/-! ## Claim C8 -/

/-- The response `_command_top` raises on success. -/
def topResponse (content : String) (n : Int) : Response :=
  Response.okMultiline ("Sending the message" ++ aposS ++ "s partial content")
    (topContent content n) (n == 0)

/-- The response `_command_retr` raises on success. -/
def retrResponse (content : String) : Response :=
  Response.okMultiline ("Sending the message" ++ aposS ++ "s content") content false

/-- The raised response of a handler run, if any. -/
def responseOf {α : Type} (p : Session × CmdOut α) : Option Response :=
  match p.2 with
  | .raised r => some r
  | .ret _ => none

theorem topContent_full (content : String) (n : Int)
    (h : (bodyLineCount content : Int) ≤ n) :
    topContent content n = String.mk (joinCRLF (splitLines content.toList)) := by
  unfold topContent
  unfold bodyLineCount at h
  dsimp only
  have htake : (((splitLines content.toList).dropWhile (fun l => !l.isEmpty)).drop 1).take
      n.toNat = ((splitLines content.toList).dropWhile (fun l => !l.isEmpty)).drop 1 := by
    apply List.take_of_length_le
    omega
  rw [htake]
  congr 1
  rw [List.append_assoc, List.take_append_drop, List.takeWhile_append_dropWhile]

theorem composeNextLines_join_split (cs : List Char) :
    composeNextLines (joinCRLF (splitLines cs)) = composeNextLines cs := by
  unfold composeNextLines
  rw [splitLines_joinCRLF (splitLines cs) (splitLines_ne_nil cs) (splitLines_clean cs)]

/-- Two non-forced multiline responses with the same normalised section
render with identical bytes after their first lines. -/
theorem buildMessageStr_tail_eq (r1 r2 : Response) (lang : Option String)
    (b1 b2 : String) (h1 : r1.multiline = some b1) (h2 : r2.multiline = some b2)
    (hf1 : r1.forceCRLF = false) (hf2 : r2.forceCRLF = false)
    (hsec : composeNextLines b1.toList = composeNextLines b2.toList) :
    ∃ tail, buildMessageStr r1 lang = composeFirstLine r1 lang ++ tail ∧
            buildMessageStr r2 lang = composeFirstLine r2 lang ++ tail := by
  rw [buildMessageStr_multiline r1 lang b1 h1, buildMessageStr_multiline r2 lang b2 h2]
  rw [hf1, hf2, hsec]
  simp only [Bool.false_or]
  have hee : endsCRLF (composeFirstLine r1 lang ++ composeNextLines b2.toList)
      = endsCRLF (composeFirstLine r2 lang ++ composeNextLines b2.toList) :=
    endsCRLF_congr_append _ _ _ (composeFirstLine_endsCRLF r1 lang)
      (composeFirstLine_endsCRLF r2 lang)
  rw [hee]
  rcases Bool.eq_false_or_eq_true
    (endsCRLF (composeFirstLine r2 lang ++ composeNextLines b2.toList)) with hc | hc
  · rw [hc]
    simp only [Bool.not_true, Bool.false_eq_true, if_false]
    exact ⟨composeNextLines b2.toList ++ ['.', '\r', '\n'], by simp, by simp⟩
  · rw [hc]
    simp only [Bool.not_false, if_true]
    exact ⟨(composeNextLines b2.toList ++ ['\r', '\n']) ++ ['.', '\r', '\n'],
      by simp, by simp⟩

theorem parseNumberOfLinesM_ok (s : Session) (nStr : String) (n : Int)
    (hn : parsePyInt nStr.toList = some n) (hn0 : 0 ≤ n) :
    parseNumberOfLinesM nStr s = (s, CmdOut.ret n) := by
  unfold parseNumberOfLinesM
  rw [hn]
  dsimp only
  rw [if_neg (by omega)]
  rfl

theorem getHeadersAndFirstNLinesM_eq (i n : Int) (s : Session) :
    getHeadersAndFirstNLinesM i n s
      = (logE (.getMessageContent i s.status.encoding) s,
         CmdOut.ret (topContent (s.adapter.messageContent i s.status.encoding) n)) := rfl

theorem getMessageContentM_eq (i : Int) (s : Session) :
    getMessageContentM i s
      = (logE (.getMessageContent i s.status.encoding) s,
         CmdOut.ret (s.adapter.messageContent i s.status.encoding)) := rfl

theorem parseMessageNumberToIndexM_ok (s : Session) (numStr : String) (i : Int)
    (hnum : parsePyInt numStr.toList = some (i + 1)) (hi0 : 0 ≤ i)
    (hic : i < s.adapter.messageCount)
    (hnm : (if s.status.readOnlyMailboxAccess = true then false
            else s.marks.contains i) = false) :
    ∃ s', parseMessageNumberToIndexM numStr s = (s', CmdOut.ret i) ∧
      s'.adapter = s.adapter ∧ s'.status = s.status ∧ s'.marks = s.marks := by
  unfold parseMessageNumberToIndexM
  rw [hnum]
  dsimp only
  simp only [Int.add_sub_cancel]
  rw [if_neg (by omega)]
  unfold mbind getMessageCountM
  rw [if_neg (by omega)]
  simp only [logE]
  rw [if_neg (by omega)]
  unfold isMessageMarkedAsDeletedM
  dsimp only
  rcases hro : s.status.readOnlyMailboxAccess with hf | ht
  · rw [hro] at hnm
    simp only [Bool.false_eq_true, if_false] at hnm ⊢
    rw [hnm]
    simp only [Bool.false_eq_true, if_false]
    exact ⟨_, rfl, rfl, rfl, rfl⟩
  · rw [hro] at hnm
    simp only [if_true] at hnm ⊢
    simp only [Bool.false_eq_true, if_false]
    exact ⟨_, rfl, rfl, rfl, rfl⟩

/-- C8 counterexample: message 2 of the sample mailbox has content
`"H\r\n"`, so it has 0 body lines and n = 0 satisfies the claim's
`n ≥ body lines`; yet the wire bytes of the successful TOP(2, 0) response
differ from those of the successful RETR(2) response (the first lines
differ, and TOP's force-CRLF flag adds a blank line before the
terminator). -/
theorem c8_counterexample :
    bodyLineCount "H\r\n" = 0 ∧
    authSession.adapter.messageContent 1 authSession.status.encoding = "H\r\n" ∧
    responseOf (handleCommand "TOP" ["2", "0"] authSession)
      = some (topResponse "H\r\n" 0) ∧
    responseOf (handleCommand "RETR" ["2"] authSession)
      = some (retrResponse "H\r\n") ∧
    buildMessageBytes (topResponse "H\r\n" 0) authSession.status.customLanguage
        authSession.status.encoding
      ≠ buildMessageBytes (retrResponse "H\r\n") authSession.status.customLanguage
        authSession.status.encoding :=
  ⟨rfl, rfl, rfl, rfl, by decide⟩

/-- C8 amended: under the session state, TOP and RETR raise exactly the
responses built from the adapter content — TOP's body being the headers,
the blank separator (if any) and the first n body lines, with the
force-CRLF flag set exactly when n = 0; and whenever n ≥ 1 and n is at
least the number of body lines, the two responses render identically
after their first lines (which differ in their human-readable text), at
the character and at the byte level. -/
theorem c8_top_retr_relation :
    (∀ (s : Session) (numStr nStr : String) (i n : Int),
      s.status.authenticated = true →
      parsePyInt numStr.toList = some (i + 1) →
      parsePyInt nStr.toList = some n →
      0 ≤ i → i < s.adapter.messageCount →
      (if s.status.readOnlyMailboxAccess = true then false
       else s.marks.contains i) = false →
      0 ≤ n →
      (∃ s1, handleCommand "TOP" [numStr, nStr] s
        = (s1, CmdOut.raised
            (topResponse (s.adapter.messageContent i s.status.encoding) n))) ∧
      (∃ s2, handleCommand "RETR" [numStr] s
        = (s2, CmdOut.raised
            (retrResponse (s.adapter.messageContent i s.status.encoding))))) ∧
    (∀ (content : String) (n : Int), (topResponse content n).forceCRLF = true ↔ n = 0) ∧
    (∀ (content : String) (n : Int), (bodyLineCount content : Int) ≤ n →
      topContent content n = String.mk (joinCRLF (splitLines content.toList))) ∧
    (∀ (content : String) (n : Int), 1 ≤ n → (bodyLineCount content : Int) ≤ n →
      ∀ (lang : Option String) (e : Enc),
      ∃ tail, buildMessageStr (topResponse content n) lang
          = composeFirstLine (topResponse content n) lang ++ tail ∧
        buildMessageStr (retrResponse content) lang
          = composeFirstLine (retrResponse content) lang ++ tail ∧
        (∀ bsT bsR,
          encodeStr e (buildMessageStr (topResponse content n) lang) = some bsT →
          encodeStr e (buildMessageStr (retrResponse content) lang) = some bsR →
          ∃ bfT bfR bt, encodeStr e tail = some bt ∧
            bsT = bfT ++ bt ∧ bsR = bfR ++ bt)) := by
  refine ⟨?_, ?_, fun content n h => topContent_full content n h, ?_⟩
  · intro s numStr nStr i n hauth hnum hn hi0 hic hnm hn0
    obtain ⟨s', hs', hadp, hst, hmk⟩ :=
      parseMessageNumberToIndexM_ok s numStr i hnum hi0 hic hnm
    have hchk2 : checkArgumentCount [numStr, nStr] [2] s = (s, CmdOut.ret ()) := by
      unfold checkArgumentCount
      rw [if_pos (by rfl)]
      rfl
    have hchk1 : checkArgumentCount [numStr] [1] s = (s, CmdOut.ret ()) := by
      unfold checkArgumentCount
      rw [if_pos (by rfl)]
      rfl
    constructor
    · have hd : handleCommand "TOP" [numStr, nStr] s = commandTop [numStr, nStr] s := by
        unfold handleCommand
        rw [if_pos hauth]
        rfl
      rw [hd]
      unfold commandTop
      unfold mbind
      dsimp only
      rw [hchk2]
      dsimp only
      simp only [List.headD, List.drop_succ_cons, List.drop_zero]
      rw [hs']
      dsimp only
      rw [parseNumberOfLinesM_ok s' nStr n hn hn0]
      dsimp only
      rw [getHeadersAndFirstNLinesM_eq i n s']
      dsimp only
      rw [hadp, hst]
      exact ⟨_, rfl⟩
    · have hd : handleCommand "RETR" [numStr] s = commandRetr [numStr] s := by
        unfold handleCommand
        rw [if_pos hauth]
        rfl
      rw [hd]
      unfold commandRetr
      unfold mbind
      dsimp only
      rw [hchk1]
      dsimp only
      simp only [List.headD]
      rw [hs']
      dsimp only
      rw [getMessageContentM_eq i s']
      dsimp only
      rw [hadp, hst]
      exact ⟨_, rfl⟩
  · intro content n
    unfold topResponse Response.okMultiline
    simp
  · intro content n hn1 hbody lang e
    have hne : (n == 0) = false := by
      simp only [beq_eq_false_iff_ne, ne_eq]
      omega
    have hsec : composeNextLines (topContent content n).toList
        = composeNextLines content.toList := by
      rw [topContent_full content n hbody]
      exact composeNextLines_join_split content.toList
    obtain ⟨tail, htT, htR⟩ := buildMessageStr_tail_eq (topResponse content n)
      (retrResponse content) lang (topContent content n) content rfl rfl
      (by unfold topResponse Response.okMultiline; dsimp only; exact hne) rfl hsec
    refine ⟨tail, htT, htR, ?_⟩
    intro bsT bsR hbsT hbsR
    rw [htT] at hbsT
    rw [htR] at hbsR
    obtain ⟨baT, btT, hbaT, hbtT, happT⟩ := encodeStr_append_some e _ _ bsT hbsT
    obtain ⟨baR, btR, hbaR, hbtR, happR⟩ := encodeStr_append_some e _ _ bsR hbsR
    refine ⟨baT, baR, btT, hbtT, happT, ?_⟩
    rw [happR]
    rw [hbtR] at hbtT
    simp only [Option.some.injEq] at hbtT
    rw [hbtT]

/-- Witness for the amended C8 at a concrete message and n. -/
theorem c8_top_retr_relation_witness :
    ∃ s1, handleCommand "TOP" ["2", "5"] authSession
      = (s1, CmdOut.raised
          (topResponse (authSession.adapter.messageContent 1
            authSession.status.encoding) 5)) :=
  (c8_top_retr_relation.1 authSession "2" "5" 1 5 rfl (by decide) (by decide)
    (by decide) (by decide) (by decide) (by decide)).1

end POP3SF
